import Mathlib

/-!
# A verification model of the Cipherise TypeScript SDK

This file is a shallow embedding of the client-side protocol / crypto layer of
the `cipherise-typescript-sdk` repository (`src/lib/authentication.ts`,
`src/lib/client.ts`, `src/lib/device.ts`, `src/lib/enrolment.ts`,
`src/lib/push-authentication.ts`, `src/lib/wave-authentication.ts`,
`src/lib/util.ts`).

Modelling conventions, fixed once here:

* Byte buffers (`Buffer`) are `List Nat`, each entry a byte `< 256`; byte
  arithmetic is done with explicit `% 256` where overflow matters.
* The AES-256-CFB cipher used by `crypto.createCipheriv("aes-256-cfb", ...)`
  is implemented concretely (FIPS-197 AES-256 block cipher in CFB128 mode),
  because claims about payload tampering depend on the actual structure of the
  cipher (CFB malleability), not just on an encrypt/decrypt inverse contract.
* RSA and SHA-256 are modelled symbolically (a free term algebra `SBuf`):
  a keypair is identified by a `Nat`; `rsaSign k d` is the signature of `d`
  under keypair `k`; verification succeeds exactly on that term; `sha256s s`
  is the digest of the UTF-8 string `s`.  This is the standard perfect
  cryptography assumption; hashing and signing are injective by construction.
* `JSON.stringify` / `JSON.parse` are implemented concretely over a `Json`
  value type (null / booleans / strings / arrays / objects; JS float
  formatting is out of scope so numbers are omitted from the modelled JSON
  universe).
* The msgpack binary codec is out of scope per the spec ("consumed as a
  capability to pack/unpack ordered value tuples into bytes"); entity
  serialization is therefore modelled at the decoded-value level (`MVal`),
  with `MVal.packed` standing for a nested msgpack-encoded buffer.
-/

namespace Cipherise

/-! ## Bytes -/

/-- Byte buffers: lists of naturals, each `< 256` when well-formed. -/
abbrev Bytes := List Nat

/-- Bytewise xor, truncated to a byte. -/
def xor8 (a b : Nat) : Nat := (a ^^^ b) % 256

/-- All entries of a buffer are bytes. -/
def BytesWF (bs : Bytes) : Prop := ∀ b ∈ bs, b < 256

instance : DecidablePred BytesWF := fun bs =>
  inferInstanceAs (Decidable (∀ b ∈ bs, b < 256))

theorem xor8_lt (a b : Nat) : xor8 a b < 256 :=
  Nat.mod_lt _ (by omega)

theorem xor8_eq_of_lt {a b : Nat} (ha : a < 256) (hb : b < 256) :
    xor8 a b = a ^^^ b := by
  have : a ^^^ b < 256 := Nat.xor_lt_two_pow (n := 8) ha hb
  simpa [xor8] using Nat.mod_eq_of_lt this

theorem xor8_cancel {a b : Nat} (ha : a < 256) (hb : b < 256) :
    xor8 (xor8 a b) b = a := by
  rw [xor8_eq_of_lt ha hb,
      xor8_eq_of_lt (Nat.xor_lt_two_pow (n := 8) ha hb) hb,
      Nat.xor_assoc, Nat.xor_self, Nat.xor_zero]

/-- Pointwise xor of two buffers (length of the first argument; the second is
assumed at least as long, as is the case at every use site). -/
def xorBytes : Bytes → Bytes → Bytes
  | [], _ => []
  | _, [] => []
  | a :: as', b :: bs' => xor8 a b :: xorBytes as' bs'

theorem xorBytes_length (as' bs : Bytes) (h : as'.length ≤ bs.length) :
    (xorBytes as' bs).length = as'.length := by
  induction as' generalizing bs with
  | nil => simp [xorBytes]
  | cons a t ih =>
    cases bs with
    | nil => simp at h
    | cons b bt => simp [xorBytes, ih bt (by simpa using h)]

theorem xorBytes_wf (as' bs : Bytes) : BytesWF (xorBytes as' bs) := by
  induction as' generalizing bs with
  | nil => intro b hb; simp [xorBytes] at hb
  | cons a t ih =>
    cases bs with
    | nil => intro b hb; simp [xorBytes] at hb
    | cons b bt =>
      intro x hx
      simp only [xorBytes, List.mem_cons] at hx
      rcases hx with h | h
      · exact h ▸ xor8_lt _ _
      · exact ih bt x h

theorem xorBytes_cancel (as' bs : Bytes) (ha : BytesWF as') (hb : BytesWF bs)
    (h : as'.length ≤ bs.length) : xorBytes (xorBytes as' bs) bs = as' := by
  induction as' generalizing bs with
  | nil => cases bs <;> simp [xorBytes]
  | cons a t ih =>
    cases bs with
    | nil => simp at h
    | cons b bt =>
      simp only [xorBytes]
      rw [xor8_cancel (ha a (by simp)) (hb b (by simp)),
          ih bt (fun x hx => ha x (by simp [hx]))
            (fun x hx => hb x (by simp [hx])) (by simpa using h)]

/-! ## Hex encoding (`Buffer.toString("hex")` / `Buffer.from(s, "hex")`) -/

/-- Lowercase hex digit for a value `< 16`. -/
def hexDigit (n : Nat) : Char :=
  if n < 10 then Char.ofNat (48 + n) else Char.ofNat (87 + n)

/-- Hex value of a character, if it is a hex digit (node accepts both cases). -/
def hexVal (c : Char) : Option Nat :=
  if 48 ≤ c.toNat ∧ c.toNat ≤ 57 then some (c.toNat - 48)
  else if 97 ≤ c.toNat ∧ c.toNat ≤ 102 then some (c.toNat - 87)
  else if 65 ≤ c.toNat ∧ c.toNat ≤ 70 then some (c.toNat - 55)
  else none

/-- `buf.toString("hex")`: two lowercase hex digits per byte. -/
def hexEncodeL : Bytes → List Char
  | [] => []
  | b :: bs => hexDigit ((b / 16) % 16) :: hexDigit (b % 16) :: hexEncodeL bs

def hexEncode (bs : Bytes) : String := ⟨hexEncodeL bs⟩

/-- `Buffer.from(s, "hex")` (node semantics): decode pairs of hex digits,
stopping at the first invalid pair; a trailing lone digit is dropped. -/
def hexDecodeL : List Char → Bytes
  | c1 :: c2 :: rest =>
    match hexVal c1, hexVal c2 with
    | some h, some l => (16 * h + l) :: hexDecodeL rest
    | _, _ => []
  | _ => []

def hexDecode (s : String) : Bytes := hexDecodeL s.data

theorem hexVal_hexDigit {n : Nat} (h : n < 16) : hexVal (hexDigit n) = some n := by
  interval_cases n <;> decide

theorem hexDecodeL_hexEncodeL {bs : Bytes} (h : BytesWF bs) :
    hexDecodeL (hexEncodeL bs) = bs := by
  induction bs with
  | nil => rfl
  | cons b t ih =>
    have hb : b < 256 := h b (by simp)
    have h1 : (b / 16) % 16 < 16 := Nat.mod_lt _ (by omega)
    have h2 : b % 16 < 16 := Nat.mod_lt _ (by omega)
    have hmod : b / 16 % 16 = b / 16 := Nat.mod_eq_of_lt (by omega)
    simp only [hexEncodeL, hexDecodeL, hexVal_hexDigit h1, hexVal_hexDigit h2]
    rw [ih (fun x hx => h x (by simp [hx]))]
    congr 1
    omega

theorem hexDecode_hexEncode {bs : Bytes} (h : BytesWF bs) :
    hexDecode (hexEncode bs) = bs := hexDecodeL_hexEncodeL h

/-! ## Decimal rendering / parsing (JS `Number.prototype.toString` / `Number`) -/

/-- Character for a decimal digit. -/
def digitChar (n : Nat) : Char := Char.ofNat (48 + n)

/-- Fuel-bounded little-endian base-`b` digits (structural recursion so that
concrete instances reduce in the kernel). -/
def digitsGo (b : Nat) : Nat → Nat → List Nat
  | 0, _ => []
  | fuel + 1, n => if n = 0 then [] else n % b :: digitsGo b fuel (n / b)

/-- Little-endian base-`b` digits of `n`. -/
def digitsBase (b n : Nat) : List Nat := digitsGo b n n

theorem digitsGo_eq_digits {b : Nat} (hb : 2 ≤ b) :
    ∀ fuel n, n ≤ fuel → digitsGo b fuel n = Nat.digits b n := by
  intro fuel
  induction fuel with
  | zero =>
    intro n h
    have : n = 0 := by omega
    subst this
    simp [digitsGo]
  | succ f ih =>
    intro n h
    rw [digitsGo]
    by_cases h0 : n = 0
    · subst h0; simp
    · rw [if_neg h0,
        ih (n / b) (by
          have : n / b < n := Nat.div_lt_self (Nat.pos_of_ne_zero h0) (by omega)
          omega),
        ← Nat.digits_def' (by omega : 1 < b) (Nat.pos_of_ne_zero h0)]

theorem digitsBase_eq_digits {b : Nat} (hb : 2 ≤ b) (n : Nat) :
    digitsBase b n = Nat.digits b n :=
  digitsGo_eq_digits hb n n le_rfl

/-- Decimal rendering of a natural, as a character list. -/
def decReprL (n : Nat) : List Char :=
  if n = 0 then [digitChar 0] else (digitsBase 10 n).reverse.map digitChar

/-- Decimal rendering of a natural (`(n).toString()` in JS). -/
def decRepr (n : Nat) : String := ⟨decReprL n⟩

/-- Decimal digit value of a character, if any. -/
def decDigit? (c : Char) : Option Nat :=
  if 48 ≤ c.toNat ∧ c.toNat ≤ 57 then some (c.toNat - 48) else none

def decParseGo : List Char → Nat → Option Nat
  | [], acc => some acc
  | c :: rest, acc =>
    match decDigit? c with
    | some d => decParseGo rest (10 * acc + d)
    | none => none

/-- Parse a non-empty all-digit string as a natural. -/
def decParseL (cs : List Char) : Option Nat :=
  if cs.isEmpty then none else decParseGo cs 0

def decParse (s : String) : Option Nat := decParseL s.data

theorem decDigit?_digitChar {d : Nat} (h : d < 10) :
    decDigit? (digitChar d) = some d := by
  interval_cases d <;> decide

theorem decParseGo_append (xs ys : List Char) (acc : Nat) :
    decParseGo (xs ++ ys) acc =
      match decParseGo xs acc with
      | some a => decParseGo ys a
      | none => none := by
  induction xs generalizing acc with
  | nil => rfl
  | cons c t ih =>
    simp only [List.cons_append, decParseGo]
    cases decDigit? c with
    | none => rfl
    | some d => exact ih _

theorem decParseGo_digits (ds : List Nat) (acc : Nat) (h : ∀ d ∈ ds, d < 10) :
    decParseGo (ds.reverse.map digitChar) acc =
      some (acc * 10 ^ ds.length + Nat.ofDigits 10 ds) := by
  induction ds generalizing acc with
  | nil => simp [decParseGo, Nat.ofDigits]
  | cons d t ih =>
    rw [List.reverse_cons, List.map_append, decParseGo_append,
        ih acc (fun x hx => h x (by simp [hx]))]
    simp only [List.map_cons, List.map_nil, decParseGo,
      decDigit?_digitChar (h d (by simp)), Nat.ofDigits_cons]
    congr 1
    simp only [List.length_cons, pow_succ]
    ring

theorem decParseL_decReprL (n : Nat) : decParseL (decReprL n) = some n := by
  by_cases h0 : n = 0
  · subst h0; decide
  · have hne : Nat.digits 10 n ≠ [] := Nat.digits_ne_nil_iff_ne_zero.mpr h0
    have hlt : ∀ d ∈ Nat.digits 10 n, d < 10 :=
      fun d hd => Nat.digits_lt_base (by norm_num) hd
    rw [decReprL, if_neg h0, digitsBase_eq_digits (by norm_num), decParseL]
    rw [if_neg (by simpa [List.isEmpty_iff] using hne)]
    rw [decParseGo_digits _ 0 hlt, Nat.ofDigits_digits]
    simp

theorem decParse_decRepr (n : Nat) : decParse (decRepr n) = some n :=
  decParseL_decReprL n

theorem decRepr_injective : Function.Injective decRepr := by
  intro m n h
  have : decParse (decRepr m) = decParse (decRepr n) := by rw [h]
  rw [decParse_decRepr, decParse_decRepr] at this
  exact Option.some.inj this

theorem decReprL_injective : Function.Injective decReprL := by
  intro m n h
  exact decRepr_injective (congrArg String.mk h)

/-! ## UTF-8 (`Buffer.from(s, "utf8")` / `buf.toString("utf8")`) -/

theorem char_toNat_valid (c : Char) :
    c.toNat < 55296 ∨ (57343 < c.toNat ∧ c.toNat < 1114112) := c.valid

/-- UTF-8 encoding of one character. -/
def utf8EncChar (c : Char) : Bytes :=
  if c.toNat < 128 then [c.toNat]
  else if c.toNat < 2048 then [192 + c.toNat / 64, 128 + c.toNat % 64]
  else if c.toNat < 65536 then
    [224 + c.toNat / 4096, 128 + c.toNat / 64 % 64, 128 + c.toNat % 64]
  else
    [240 + c.toNat / 262144, 128 + c.toNat / 4096 % 64, 128 + c.toNat / 64 % 64,
      128 + c.toNat % 64]

/-- `Buffer.from(s, "utf8")`. -/
def utf8Enc (s : String) : Bytes := s.data.flatMap utf8EncChar

/-- The U+FFFD replacement character, produced by node for invalid sequences. -/
def replChar : Char := Char.ofNat 65533

def isCont (b : Nat) : Bool := decide (128 ≤ b ∧ b < 192)

/-- UTF-8 decoding with replacement-character semantics
(`buf.toString("utf8")` never fails; invalid bytes become U+FFFD).
A multi-byte sequence is consumed whole when its continuation bytes are
present and valid; otherwise the lead byte alone is consumed and replaced.
Structural recursion on fuel (one unit per decoded character) so concrete
instances reduce in the kernel; `bs.length` fuel always suffices. -/
def utf8DecGo : Nat → Bytes → List Char
  | 0, _ => []
  | _ + 1, [] => []
  | fuel + 1, b :: rest =>
    if b < 128 then Char.ofNat b :: utf8DecGo fuel rest
    else if b < 192 then replChar :: utf8DecGo fuel rest
    else if b < 224 then
      if 1 ≤ rest.length ∧ isCont (rest.getD 0 0) then
        (if 128 ≤ (b - 192) * 64 + (rest.getD 0 0 - 128) then
          Char.ofNat ((b - 192) * 64 + (rest.getD 0 0 - 128))
          else replChar) :: utf8DecGo fuel (rest.drop 1)
      else if rest.length = 0 then [replChar]
      else replChar :: utf8DecGo fuel rest
    else if b < 240 then
      if 2 ≤ rest.length ∧ isCont (rest.getD 0 0) ∧ isCont (rest.getD 1 0) then
        (if 2048 ≤ (b - 224) * 4096 + (rest.getD 0 0 - 128) * 64 +
              (rest.getD 1 0 - 128) ∧
            ¬(55296 ≤ (b - 224) * 4096 + (rest.getD 0 0 - 128) * 64 +
                (rest.getD 1 0 - 128) ∧
              (b - 224) * 4096 + (rest.getD 0 0 - 128) * 64 +
                (rest.getD 1 0 - 128) ≤ 57343) then
          Char.ofNat ((b - 224) * 4096 + (rest.getD 0 0 - 128) * 64 +
            (rest.getD 1 0 - 128))
          else replChar) :: utf8DecGo fuel (rest.drop 2)
      else if rest.length = 0 then [replChar]
      else replChar :: utf8DecGo fuel rest
    else
      if 3 ≤ rest.length ∧ isCont (rest.getD 0 0) ∧ isCont (rest.getD 1 0) ∧
          isCont (rest.getD 2 0) then
        (if 65536 ≤ (b - 240) * 262144 + (rest.getD 0 0 - 128) * 4096 +
              (rest.getD 1 0 - 128) * 64 + (rest.getD 2 0 - 128) ∧
            (b - 240) * 262144 + (rest.getD 0 0 - 128) * 4096 +
              (rest.getD 1 0 - 128) * 64 + (rest.getD 2 0 - 128) < 1114112 then
          Char.ofNat ((b - 240) * 262144 + (rest.getD 0 0 - 128) * 4096 +
            (rest.getD 1 0 - 128) * 64 + (rest.getD 2 0 - 128))
          else replChar) :: utf8DecGo fuel (rest.drop 3)
      else if rest.length = 0 then [replChar]
      else replChar :: utf8DecGo fuel rest

def utf8Dec (bs : Bytes) : String := ⟨utf8DecGo bs.length bs⟩

theorem utf8EncChar_wf (c : Char) : BytesWF (utf8EncChar c) := by
  have hv := char_toNat_valid c
  unfold utf8EncChar
  split
  · intro b hb; simp only [List.mem_singleton] at hb; omega
  · split
    · intro b hb
      simp only [List.mem_cons, List.not_mem_nil, or_false] at hb
      rcases hb with h | h <;> omega
    · split
      · intro b hb
        simp only [List.mem_cons, List.not_mem_nil, or_false] at hb
        rcases hb with h | h | h <;> omega
      · intro b hb
        simp only [List.mem_cons, List.not_mem_nil, or_false] at hb
        rcases hb with h | h | h | h <;> omega

theorem utf8EncChar_ne_nil (c : Char) : utf8EncChar c ≠ [] := by
  unfold utf8EncChar
  split
  · simp
  · split
    · simp
    · split <;> simp

theorem utf8Enc_wf (s : String) : BytesWF (utf8Enc s) := by
  intro b hb
  simp only [utf8Enc, List.mem_flatMap] at hb
  obtain ⟨c, _, hc⟩ := hb
  exact utf8EncChar_wf c b hc

theorem utf8DecGo_encChar (c : Char) (tail : Bytes) (fuel : Nat) :
    utf8DecGo (fuel + 1) (utf8EncChar c ++ tail) = c :: utf8DecGo fuel tail := by
  have hv := char_toNat_valid c
  by_cases h1 : c.toNat < 128
  · simp only [utf8EncChar, if_pos h1, List.cons_append, List.nil_append]
    rw [utf8DecGo]
    rw [if_pos h1, Char.ofNat_toNat]
  · by_cases h2 : c.toNat < 2048
    · have e1 : ¬(192 + c.toNat / 64 < 128) := by omega
      have e2 : ¬(192 + c.toNat / 64 < 192) := by omega
      have e3 : 192 + c.toNat / 64 < 224 := by omega
      have e4 : isCont (128 + c.toNat % 64) = true := by
        simp only [isCont, decide_eq_true_eq]; omega
      have e5 : (192 + c.toNat / 64 - 192) * 64 + (128 + c.toNat % 64 - 128)
          = c.toNat := by omega
      simp only [utf8EncChar, if_neg h1, if_pos h2, List.cons_append,
        List.nil_append]
      rw [utf8DecGo]
      simp only [if_neg e1, if_neg e2, if_pos e3, List.getD_cons_zero,
        List.length_cons, List.drop_succ_cons, List.drop_zero, e4,
        Nat.le_add_left, and_true, true_and, if_true]
      rw [if_pos (by omega), e5, Char.ofNat_toNat]
    · by_cases h3 : c.toNat < 65536
      · have e1 : ¬(224 + c.toNat / 4096 < 128) := by omega
        have e2 : ¬(224 + c.toNat / 4096 < 192) := by omega
        have e3 : ¬(224 + c.toNat / 4096 < 224) := by omega
        have e4 : 224 + c.toNat / 4096 < 240 := by omega
        have e5 : isCont (128 + c.toNat / 64 % 64) = true := by
          simp only [isCont, decide_eq_true_eq]; omega
        have e6 : isCont (128 + c.toNat % 64) = true := by
          simp only [isCont, decide_eq_true_eq]; omega
        have e7 : (224 + c.toNat / 4096 - 224) * 4096 +
            (128 + c.toNat / 64 % 64 - 128) * 64 + (128 + c.toNat % 64 - 128)
            = c.toNat := by omega
        simp only [utf8EncChar, if_neg h1, if_neg h2, if_pos h3,
          List.cons_append, List.nil_append]
        rw [utf8DecGo]
        simp only [if_neg e1, if_neg e2, if_neg e3, if_pos e4,
          List.getD_cons_zero, List.getD_cons_succ, List.length_cons,
          List.drop_succ_cons, List.drop_zero, e5, e6, and_true, true_and,
          if_true]
        rw [if_pos (by omega), e7]
        rw [if_pos (by omega), Char.ofNat_toNat]
      · have e1 : ¬(240 + c.toNat / 262144 < 128) := by omega
        have e2 : ¬(240 + c.toNat / 262144 < 192) := by omega
        have e3 : ¬(240 + c.toNat / 262144 < 224) := by omega
        have e4 : ¬(240 + c.toNat / 262144 < 240) := by omega
        have e5 : isCont (128 + c.toNat / 4096 % 64) = true := by
          simp only [isCont, decide_eq_true_eq]; omega
        have e6 : isCont (128 + c.toNat / 64 % 64) = true := by
          simp only [isCont, decide_eq_true_eq]; omega
        have e7 : isCont (128 + c.toNat % 64) = true := by
          simp only [isCont, decide_eq_true_eq]; omega
        have e8 : (240 + c.toNat / 262144 - 240) * 262144 +
            (128 + c.toNat / 4096 % 64 - 128) * 4096 +
            (128 + c.toNat / 64 % 64 - 128) * 64 + (128 + c.toNat % 64 - 128)
            = c.toNat := by omega
        simp only [utf8EncChar, if_neg h1, if_neg h2, if_neg h3,
          List.cons_append, List.nil_append]
        rw [utf8DecGo]
        simp only [if_neg e1, if_neg e2, if_neg e3, if_neg e4,
          List.getD_cons_zero, List.getD_cons_succ, List.length_cons,
          List.drop_succ_cons, List.drop_zero, e5, e6, e7, and_true, true_and,
          if_true]
        rw [if_pos (by omega), e8]
        rw [if_pos (by omega), Char.ofNat_toNat]

theorem utf8EncChar_length_pos (c : Char) : 1 ≤ (utf8EncChar c).length := by
  cases hx : utf8EncChar c with
  | nil => exact absurd hx (utf8EncChar_ne_nil c)
  | cons a t => simp

theorem utf8DecGo_enc (cs : List Char) :
    ∀ fuel, (cs.flatMap utf8EncChar).length ≤ fuel →
      utf8DecGo fuel (cs.flatMap utf8EncChar) = cs := by
  induction cs with
  | nil => intro fuel h; cases fuel <;> rfl
  | cons c t ih =>
    intro fuel h
    rw [List.flatMap_cons] at h ⊢
    cases fuel with
    | zero =>
      exfalso
      have := utf8EncChar_length_pos c
      simp only [List.length_append] at h
      omega
    | succ f =>
      rw [utf8DecGo_encChar, ih f (by
        have := utf8EncChar_length_pos c
        simp only [List.length_append] at h
        omega)]

theorem utf8Dec_utf8Enc (s : String) : utf8Dec (utf8Enc s) = s := by
  simp only [utf8Dec, utf8Enc, utf8DecGo_enc s.data _ le_rfl]

theorem utf8Enc_injective : Function.Injective utf8Enc := by
  intro a b h
  have := congrArg utf8Dec h
  rwa [utf8Dec_utf8Enc, utf8Dec_utf8Enc] at this

/-! ## JSON (`JSON.stringify` / `JSON.parse`)

The modelled JSON universe: null, booleans, strings, arrays, objects.
(JS number formatting is floating-point and out of scope; none of the
SDK payload shapes require numbers.)  `JSON.parse` is modelled with the
grammar it accepts for these values, including whitespace skipping and
string escapes. -/

inductive Json where
  | null
  | bool (b : Bool)
  | str (s : String)
  | arr (elems : List Json)
  | obj (fields : List (String × Json))
deriving Repr

mutual

def Json.decEq : (a b : Json) → Decidable (a = b)
  | .null, .null => isTrue rfl
  | .null, .bool _ => isFalse nofun
  | .null, .str _ => isFalse nofun
  | .null, .arr _ => isFalse nofun
  | .null, .obj _ => isFalse nofun
  | .bool _, .null => isFalse nofun
  | .bool x, .bool y =>
    if h : x = y then isTrue (by rw [h]) else isFalse (by simp [h])
  | .bool _, .str _ => isFalse nofun
  | .bool _, .arr _ => isFalse nofun
  | .bool _, .obj _ => isFalse nofun
  | .str _, .null => isFalse nofun
  | .str _, .bool _ => isFalse nofun
  | .str x, .str y =>
    if h : x = y then isTrue (by rw [h]) else isFalse (by simp [h])
  | .str _, .arr _ => isFalse nofun
  | .str _, .obj _ => isFalse nofun
  | .arr _, .null => isFalse nofun
  | .arr _, .bool _ => isFalse nofun
  | .arr _, .str _ => isFalse nofun
  | .arr es, .arr fs =>
    match Json.decEqList es fs with
    | isTrue h => isTrue (by rw [h])
    | isFalse h => isFalse (by simp [h])
  | .arr _, .obj _ => isFalse nofun
  | .obj _, .null => isFalse nofun
  | .obj _, .bool _ => isFalse nofun
  | .obj _, .str _ => isFalse nofun
  | .obj _, .arr _ => isFalse nofun
  | .obj fs, .obj gs =>
    match Json.decEqFields fs gs with
    | isTrue h => isTrue (by rw [h])
    | isFalse h => isFalse (by simp [h])

def Json.decEqList : (a b : List Json) → Decidable (a = b)
  | [], [] => isTrue rfl
  | [], _ :: _ => isFalse nofun
  | _ :: _, [] => isFalse nofun
  | x :: xs, y :: ys =>
    match Json.decEq x y, Json.decEqList xs ys with
    | isTrue h1, isTrue h2 => isTrue (by rw [h1, h2])
    | isFalse h1, _ => isFalse (by simp [h1])
    | _, isFalse h2 => isFalse (by simp [h2])

def Json.decEqFields : (a b : List (String × Json)) → Decidable (a = b)
  | [], [] => isTrue rfl
  | [], _ :: _ => isFalse nofun
  | _ :: _, [] => isFalse nofun
  | (k1, v1) :: xs, (k2, v2) :: ys =>
    match String.decEq k1 k2, Json.decEq v1 v2, Json.decEqFields xs ys with
    | isTrue h0, isTrue h1, isTrue h2 => isTrue (by rw [h0, h1, h2])
    | isFalse h0, _, _ => isFalse (by simp [h0])
    | _, isFalse h1, _ => isFalse (by simp [h1])
    | _, _, isFalse h2 => isFalse (by simp [h2])

end

instance : DecidableEq Json := Json.decEq

/-- `JSON.stringify` escaping of one string character. -/
def jsonEscChar (c : Char) : List Char :=
  if c = Char.ofNat 34 then [Char.ofNat 92, Char.ofNat 34]
  else if c = Char.ofNat 92 then [Char.ofNat 92, Char.ofNat 92]
  else if c.toNat = 8 then [Char.ofNat 92, 'b']
  else if c.toNat = 9 then [Char.ofNat 92, 't']
  else if c.toNat = 10 then [Char.ofNat 92, 'n']
  else if c.toNat = 12 then [Char.ofNat 92, 'f']
  else if c.toNat = 13 then [Char.ofNat 92, 'r']
  else if c.toNat < 32 then
    [Char.ofNat 92, 'u', '0', '0', hexDigit (c.toNat / 16), hexDigit (c.toNat % 16)]
  else [c]

/-- `JSON.stringify` of a string, including the surrounding quotes. -/
def jsonEscStr (s : String) : List Char :=
  Char.ofNat 34 :: s.data.flatMap jsonEscChar ++ [Char.ofNat 34]

mutual

/-- `JSON.stringify` (character-list form). -/
def Json.encodeL : Json → List Char
  | .null => 'n' :: 'u' :: ['l', 'l']
  | .bool true => 't' :: ['r', 'u', 'e']
  | .bool false => 'f' :: 'a' :: ['l', 's', 'e']
  | .str s => jsonEscStr s
  | .arr es => Char.ofNat 91 :: Json.encodeElems es ++ [Char.ofNat 93]
  | .obj fs => Char.ofNat 123 :: Json.encodeFields fs ++ [Char.ofNat 125]

def Json.encodeElems : List Json → List Char
  | [] => []
  | [e] => Json.encodeL e
  | e :: e2 :: t => Json.encodeL e ++ ',' :: Json.encodeElems (e2 :: t)

def Json.encodeFields : List (String × Json) → List Char
  | [] => []
  | [(k, v)] => jsonEscStr k ++ ':' :: Json.encodeL v
  | (k, v) :: f2 :: t =>
    jsonEscStr k ++ ':' :: Json.encodeL v ++ ',' :: Json.encodeFields (f2 :: t)

end

/-- `JSON.stringify`. -/
def Json.encode (j : Json) : String := ⟨j.encodeL⟩

/-- JSON whitespace. -/
def isJsonWs (c : Char) : Bool :=
  decide (c.toNat = 32 ∨ c.toNat = 9 ∨ c.toNat = 10 ∨ c.toNat = 13)

def skipWs : List Char → List Char
  | [] => []
  | c :: rest => if isJsonWs c then skipWs rest else c :: rest

mutual

/-- Parse the body of a JSON string after the opening quote; returns the
unescaped characters and the input after the closing quote.  Structural
recursion on fuel (one unit per parsing step, each consuming at least one
character, so `cs.length` fuel always suffices). -/
def parseStrBody : Nat → List Char → Option (List Char × List Char)
  | 0, _ => none
  | _ + 1, [] => none
  | fuel + 1, c :: rest =>
    if c = Char.ofNat 34 then some ([], rest)
    else if c = Char.ofNat 92 then parseEsc fuel rest
    else if c.toNat < 32 then none
    else (parseStrBody fuel rest).map fun p => (c :: p.1, p.2)

/-- Parse one escape sequence (after the backslash). -/
def parseEsc : Nat → List Char → Option (List Char × List Char)
  | 0, _ => none
  | _ + 1, [] => none
  | fuel + 1, e :: rest =>
    if e = Char.ofNat 34 then
      (parseStrBody fuel rest).map fun p => (Char.ofNat 34 :: p.1, p.2)
    else if e = Char.ofNat 92 then
      (parseStrBody fuel rest).map fun p => (Char.ofNat 92 :: p.1, p.2)
    else if e = '/' then
      (parseStrBody fuel rest).map fun p => ('/' :: p.1, p.2)
    else if e = 'b' then
      (parseStrBody fuel rest).map fun p => (Char.ofNat 8 :: p.1, p.2)
    else if e = 'f' then
      (parseStrBody fuel rest).map fun p => (Char.ofNat 12 :: p.1, p.2)
    else if e = 'n' then
      (parseStrBody fuel rest).map fun p => (Char.ofNat 10 :: p.1, p.2)
    else if e = 'r' then
      (parseStrBody fuel rest).map fun p => (Char.ofNat 13 :: p.1, p.2)
    else if e = 't' then
      (parseStrBody fuel rest).map fun p => (Char.ofNat 9 :: p.1, p.2)
    else if e = 'u' then
      if 4 ≤ rest.length ∧ (hexVal (rest.getD 0 'x')).isSome ∧
          (hexVal (rest.getD 1 'x')).isSome ∧ (hexVal (rest.getD 2 'x')).isSome ∧
          (hexVal (rest.getD 3 'x')).isSome then
        (parseStrBody fuel (rest.drop 4)).map fun p =>
          (Char.ofNat (4096 * (hexVal (rest.getD 0 'x')).getD 0 +
            256 * (hexVal (rest.getD 1 'x')).getD 0 +
            16 * (hexVal (rest.getD 2 'x')).getD 0 +
            (hexVal (rest.getD 3 'x')).getD 0) :: p.1, p.2)
      else none
    else none
end

/-! Size measure used as parser fuel bound. -/

mutual

def Json.size : Json → Nat
  | .null => 1
  | .bool _ => 1
  | .str _ => 1
  | .arr es => 1 + Json.sizeList es
  | .obj fs => 1 + Json.sizeFields fs

def Json.sizeList : List Json → Nat
  | [] => 0
  | e :: t => 1 + Json.size e + Json.sizeList t

def Json.sizeFields : List (String × Json) → Nat
  | [] => 0
  | (_, v) :: t => 1 + Json.size v + Json.sizeFields t

end

mutual

/-- Parse one JSON value (fuel-bounded recursive-descent; the fuel only
bounds nesting/iteration and is irrelevant once large enough). -/
def parseVal : Nat → List Char → Option (Json × List Char)
  | 0, _ => none
  | fuel + 1, cs =>
    match skipWs cs with
    | [] => none
    | c :: rest =>
      if c = 'n' then
        if rest.take 3 = ['u', 'l', 'l'] then some (.null, rest.drop 3)
        else none
      else if c = 't' then
        if rest.take 3 = ['r', 'u', 'e'] then some (.bool true, rest.drop 3)
        else none
      else if c = 'f' then
        if rest.take 4 = ['a', 'l', 's', 'e'] then
          some (.bool false, rest.drop 4)
        else none
      else if c = Char.ofNat 34 then
        (parseStrBody rest.length rest).map fun p => (.str ⟨p.1⟩, p.2)
      else if c = Char.ofNat 91 then
        match skipWs rest with
        | [] => none
        | c2 :: rest2 =>
          if c2 = Char.ofNat 93 then some (.arr [], rest2)
          else (parseArrItems fuel (c2 :: rest2)).map fun p => (.arr p.1, p.2)
      else if c = Char.ofNat 123 then
        match skipWs rest with
        | [] => none
        | c2 :: rest2 =>
          if c2 = Char.ofNat 125 then some (.obj [], rest2)
          else (parseObjItems fuel (c2 :: rest2)).map fun p => (.obj p.1, p.2)
      else none

/-- Parse `value (ws "," value)* ws "]"` inside a non-empty array. -/
def parseArrItems : Nat → List Char → Option (List Json × List Char)
  | 0, _ => none
  | fuel + 1, cs =>
    match parseVal fuel cs with
    | none => none
    | some (v, r) =>
      match skipWs r with
      | [] => none
      | c :: rest =>
        if c = ',' then
          (parseArrItems fuel rest).map fun p => (v :: p.1, p.2)
        else if c = Char.ofNat 93 then some ([v], rest)
        else none

/-- Parse `ws key ws ":" value (ws "," ...)* ws` followed by the closing
brace inside a non-empty object. -/
def parseObjItems : Nat → List Char → Option (List (String × Json) × List Char)
  | 0, _ => none
  | fuel + 1, cs =>
    match skipWs cs with
    | [] => none
    | c :: rest =>
      if c = Char.ofNat 34 then
        match parseStrBody rest.length rest with
        | none => none
        | some (k, r) =>
          match skipWs r with
          | [] => none
          | c2 :: rest2 =>
            if c2 = ':' then
              match parseVal fuel rest2 with
              | none => none
              | some (v, r2) =>
                match skipWs r2 with
                | [] => none
                | c3 :: rest3 =>
                  if c3 = ',' then
                    (parseObjItems fuel rest3).map fun p =>
                      ((⟨k⟩, v) :: p.1, p.2)
                  else if c3 = Char.ofNat 125 then some ([(⟨k⟩, v)], rest3)
                  else none
            else none
      else none

end

/-- `JSON.parse` (for the modelled JSON universe): parse a value, then
require only trailing whitespace. -/
def Json.parse (s : String) : Except String Json :=
  match parseVal (s.data.length + 1) s.data with
  | some (v, rest) =>
    if (skipWs rest).isEmpty then .ok v
    else .error "Unexpected token in JSON"
  | none => .error "Unexpected token in JSON"


theorem string_eta (s : String) : (⟨s.data⟩ : String) = s := by
  cases s; rfl

theorem parseStrBody_escBody (cs : List Char) :
    ∀ (fuel : Nat) (rest : List Char),
      (cs.flatMap jsonEscChar).length + 1 ≤ fuel →
      parseStrBody fuel (cs.flatMap jsonEscChar ++ Char.ofNat 34 :: rest) =
        some (cs, rest) := by
  induction cs with
  | nil =>
    intro fuel rest h
    obtain ⟨f, rfl⟩ : ∃ f, fuel = f + 1 := ⟨fuel - 1, by omega⟩
    rw [List.flatMap_nil, List.nil_append, parseStrBody]
    simp
  | cons c t ih =>
    intro fuel rest h
    rw [List.flatMap_cons] at h ⊢
    rw [List.append_assoc]
    by_cases h1 : c = Char.ofNat 34
    · subst h1
      obtain ⟨f, rfl⟩ : ∃ f, fuel = f + 2 := ⟨fuel - 2, by
        rw [jsonEscChar, if_pos rfl] at h
        simp only [List.length_append, List.length_cons] at h
        omega⟩
      have hf : (t.flatMap jsonEscChar).length + 1 ≤ f := by
        rw [jsonEscChar, if_pos rfl] at h
        simp only [List.length_append, List.length_cons, List.length_nil] at h
        omega
      rw [jsonEscChar, if_pos rfl]
      rw [List.cons_append, List.cons_append, parseStrBody]
      rw [if_neg (by decide), if_pos rfl, parseEsc]
      rw [if_pos rfl, List.nil_append, ih f rest hf]
      rfl
    · by_cases h2 : c = Char.ofNat 92
      · subst h2
        obtain ⟨f, rfl⟩ : ∃ f, fuel = f + 2 := ⟨fuel - 2, by
          rw [jsonEscChar, if_neg (by decide), if_pos rfl] at h
          simp only [List.length_append, List.length_cons] at h
          omega⟩
        have hf : (t.flatMap jsonEscChar).length + 1 ≤ f := by
          rw [jsonEscChar, if_neg (by decide), if_pos rfl] at h
          simp only [List.length_append, List.length_cons,
            List.length_nil] at h
          omega
        rw [jsonEscChar, if_neg (by decide), if_pos rfl]
        rw [List.cons_append, List.cons_append, parseStrBody]
        rw [if_neg (by decide), if_pos rfl, parseEsc]
        rw [if_neg (by decide), if_pos rfl, List.nil_append, ih f rest hf]
        rfl
      · by_cases h3 : c.toNat = 8
        · have hc : c = Char.ofNat 8 := by rw [← Char.ofNat_toNat c, h3]
          rw [jsonEscChar, if_neg h1, if_neg h2, if_pos h3] at h ⊢
          obtain ⟨f, rfl⟩ : ∃ f, fuel = f + 2 := ⟨fuel - 2, by
            simp only [List.length_append, List.length_cons] at h
            omega⟩
          have hf : (t.flatMap jsonEscChar).length + 1 ≤ f := by
            simp only [List.length_append, List.length_cons,
              List.length_nil] at h
            omega
          rw [List.cons_append, List.cons_append, parseStrBody]
          rw [if_neg (by decide), if_pos rfl, parseEsc]
          rw [if_neg (by decide), if_neg (by decide), if_neg (by decide),
            if_pos rfl, List.nil_append, ih f rest hf]
          rw [hc]
          rfl
        · by_cases h4 : c.toNat = 9
          · have hc : c = Char.ofNat 9 := by rw [← Char.ofNat_toNat c, h4]
            rw [jsonEscChar, if_neg h1, if_neg h2, if_neg h3, if_pos h4]
              at h ⊢
            obtain ⟨f, rfl⟩ : ∃ f, fuel = f + 2 := ⟨fuel - 2, by
              simp only [List.length_append, List.length_cons] at h
              omega⟩
            have hf : (t.flatMap jsonEscChar).length + 1 ≤ f := by
              simp only [List.length_append, List.length_cons,
                List.length_nil] at h
              omega
            rw [List.cons_append, List.cons_append, parseStrBody]
            rw [if_neg (by decide), if_pos rfl, parseEsc]
            rw [if_neg (by decide), if_neg (by decide), if_neg (by decide),
              if_neg (by decide), if_neg (by decide), if_neg (by decide),
              if_neg (by decide), if_pos rfl, List.nil_append, ih f rest hf]
            rw [hc]
            rfl
          · by_cases h5 : c.toNat = 10
            · have hc : c = Char.ofNat 10 := by rw [← Char.ofNat_toNat c, h5]
              rw [jsonEscChar, if_neg h1, if_neg h2, if_neg h3, if_neg h4,
                if_pos h5] at h ⊢
              obtain ⟨f, rfl⟩ : ∃ f, fuel = f + 2 := ⟨fuel - 2, by
                simp only [List.length_append, List.length_cons] at h
                omega⟩
              have hf : (t.flatMap jsonEscChar).length + 1 ≤ f := by
                simp only [List.length_append, List.length_cons,
                  List.length_nil] at h
                omega
              rw [List.cons_append, List.cons_append, parseStrBody]
              rw [if_neg (by decide), if_pos rfl, parseEsc]
              rw [if_neg (by decide), if_neg (by decide), if_neg (by decide),
                if_neg (by decide), if_neg (by decide), if_pos rfl,
                List.nil_append, ih f rest hf]
              rw [hc]
              rfl
            · by_cases h6 : c.toNat = 12
              · have hc : c = Char.ofNat 12 := by
                  rw [← Char.ofNat_toNat c, h6]
                rw [jsonEscChar, if_neg h1, if_neg h2, if_neg h3, if_neg h4,
                  if_neg h5, if_pos h6] at h ⊢
                obtain ⟨f, rfl⟩ : ∃ f, fuel = f + 2 := ⟨fuel - 2, by
                  simp only [List.length_append, List.length_cons] at h
                  omega⟩
                have hf : (t.flatMap jsonEscChar).length + 1 ≤ f := by
                  simp only [List.length_append, List.length_cons,
                    List.length_nil] at h
                  omega
                rw [List.cons_append, List.cons_append, parseStrBody]
                rw [if_neg (by decide), if_pos rfl, parseEsc]
                rw [if_neg (by decide), if_neg (by decide),
                  if_neg (by decide), if_neg (by decide), if_pos rfl,
                  List.nil_append, ih f rest hf]
                rw [hc]
                rfl
              · by_cases h7 : c.toNat = 13
                · have hc : c = Char.ofNat 13 := by
                    rw [← Char.ofNat_toNat c, h7]
                  rw [jsonEscChar, if_neg h1, if_neg h2, if_neg h3, if_neg h4,
                    if_neg h5, if_neg h6, if_pos h7] at h ⊢
                  obtain ⟨f, rfl⟩ : ∃ f, fuel = f + 2 := ⟨fuel - 2, by
                    simp only [List.length_append, List.length_cons] at h
                    omega⟩
                  have hf : (t.flatMap jsonEscChar).length + 1 ≤ f := by
                    simp only [List.length_append, List.length_cons,
                      List.length_nil] at h
                    omega
                  rw [List.cons_append, List.cons_append, parseStrBody]
                  rw [if_neg (by decide), if_pos rfl, parseEsc]
                  rw [if_neg (by decide), if_neg (by decide),
                    if_neg (by decide), if_neg (by decide),
                    if_neg (by decide), if_neg (by decide), if_pos rfl,
                    List.nil_append, ih f rest hf]
                  rw [hc]
                  rfl
                · by_cases h8 : c.toNat < 32
                  · rw [jsonEscChar, if_neg h1, if_neg h2, if_neg h3,
                      if_neg h4, if_neg h5, if_neg h6, if_neg h7, if_pos h8]
                      at h ⊢
                    obtain ⟨f, rfl⟩ : ∃ f, fuel = f + 2 := ⟨fuel - 2, by
                      simp only [List.length_append, List.length_cons] at h
                      omega⟩
                    have hf : (t.flatMap jsonEscChar).length + 1 ≤ f := by
                      simp only [List.length_append, List.length_cons,
                        List.length_nil] at h
                      omega
                    rw [List.cons_append, List.cons_append, List.cons_append,
                      List.cons_append, List.cons_append, List.cons_append,
                      parseStrBody]
                    rw [if_neg (by decide), if_pos rfl, parseEsc]
                    rw [if_neg (by decide), if_neg (by decide),
                      if_neg (by decide), if_neg (by decide),
                      if_neg (by decide), if_neg (by decide),
                      if_neg (by decide), if_neg (by decide), if_pos rfl]
                    have hhi : c.toNat / 16 < 16 := by omega
                    have hlo : c.toNat % 16 < 16 := by omega
                    have h0 : hexVal '0' = some 0 := by decide
                    rw [if_pos]
                    · dsimp only [List.getD_cons_zero, List.getD_cons_succ,
                        List.drop_succ_cons, List.drop_zero]
                      rw [List.nil_append, ih f rest hf]
                      dsimp only [Option.map_some']
                      rw [h0, hexVal_hexDigit hhi, hexVal_hexDigit hlo]
                      dsimp only [Option.getD_some]
                      have hval : 4096 * 0 + 256 * 0 + 16 * (c.toNat / 16) +
                          c.toNat % 16 = c.toNat := by omega
                      rw [hval, Char.ofNat_toNat]
                    · refine ⟨by simp_arith, ?_, ?_, ?_, ?_⟩ <;>
                        dsimp only [List.getD_cons_zero,
                          List.getD_cons_succ] <;>
                        first
                          | rw [h0]; rfl
                          | rw [hexVal_hexDigit hhi]; rfl
                          | rw [hexVal_hexDigit hlo]; rfl
                  · rw [jsonEscChar, if_neg h1, if_neg h2, if_neg h3,
                      if_neg h4, if_neg h5, if_neg h6, if_neg h7, if_neg h8]
                      at h ⊢
                    obtain ⟨f, rfl⟩ : ∃ f, fuel = f + 1 := ⟨fuel - 1, by
                      omega⟩
                    have hf : (t.flatMap jsonEscChar).length + 1 ≤ f := by
                      simp only [List.length_append, List.length_cons,
                        List.length_nil] at h
                      omega
                    rw [List.cons_append, List.nil_append, parseStrBody]
                    rw [if_neg h1, if_neg h2, if_neg (by omega),
                      ih f rest hf]
                    rfl

theorem size_pos : (j : Json) → 1 ≤ Json.size j
  | .null | .bool _ | .str _ => by simp [Json.size]
  | .arr _ => by simp [Json.size]
  | .obj _ => by simp [Json.size]

theorem sizeList_pos {es : List Json} (h : es ≠ []) : 1 ≤ Json.sizeList es := by
  cases es with
  | nil => exact absurd rfl h
  | cons e t => simp only [Json.sizeList]; omega

theorem sizeFields_pos {fs : List (String × Json)} (h : fs ≠ []) :
    1 ≤ Json.sizeFields fs := by
  cases fs with
  | nil => exact absurd rfl h
  | cons f t => obtain ⟨k, v⟩ := f; simp only [Json.sizeFields]; omega

theorem skipWs_cons_false {c : Char} (h : isJsonWs c = false) (l : List Char) :
    skipWs (c :: l) = c :: l := by
  simp [skipWs, h]

/-- Every encoded value starts with a non-whitespace character that is not a
closing bracket or closing brace. -/
theorem encodeL_head (j : Json) :
    ∃ c cs, Json.encodeL j = c :: cs ∧ isJsonWs c = false ∧
      ¬(c = Char.ofNat 93) ∧ ¬(c = Char.ofNat 125) :=
  match j with
  | .null => ⟨'n', _, rfl, by refine ⟨?_, ?_, ?_⟩ <;> decide⟩
  | .bool true => ⟨'t', _, rfl, by refine ⟨?_, ?_, ?_⟩ <;> decide⟩
  | .bool false => ⟨'f', _, rfl, by refine ⟨?_, ?_, ?_⟩ <;> decide⟩
  | .str _ => ⟨Char.ofNat 34, _, rfl, by refine ⟨?_, ?_, ?_⟩ <;> decide⟩
  | .arr _ => ⟨Char.ofNat 91, _, rfl, by refine ⟨?_, ?_, ?_⟩ <;> decide⟩
  | .obj _ => ⟨Char.ofNat 123, _, rfl, by refine ⟨?_, ?_, ?_⟩ <;> decide⟩

theorem parse_enc_all : ∀ fuel : Nat,
    (∀ (j : Json) (rest : List Char), Json.size j ≤ fuel →
      parseVal fuel (Json.encodeL j ++ rest) = some (j, rest)) ∧
    (∀ (es : List Json) (rest : List Char), es ≠ [] →
      Json.sizeList es ≤ fuel →
      parseArrItems fuel (Json.encodeElems es ++ Char.ofNat 93 :: rest) =
        some (es, rest)) ∧
    (∀ (fs : List (String × Json)) (rest : List Char), fs ≠ [] →
      Json.sizeFields fs ≤ fuel →
      parseObjItems fuel (Json.encodeFields fs ++ Char.ofNat 125 :: rest) =
        some (fs, rest)) := by
  intro fuel
  induction fuel with
  | zero =>
    refine ⟨fun j rest h => absurd h (by have := size_pos j; omega),
      fun es rest hne h => absurd h (by have := sizeList_pos hne; omega),
      fun fs rest hne h => absurd h (by have := sizeFields_pos hne; omega)⟩
  | succ fuel ih =>
    obtain ⟨ihP, ihA, ihO⟩ := ih
    refine ⟨?_, ?_, ?_⟩
    · -- parseVal on an encoded value
      intro j rest hsz
      cases j with
      | null =>
        rw [Json.encodeL, parseVal.eq_def]
        dsimp only [List.cons_append, List.nil_append, skipWs]
        rw [if_neg (by decide)]
        dsimp only
        rw [if_pos rfl]
        simp [List.take, List.drop]
      | bool b =>
        cases b with
        | true =>
          rw [Json.encodeL, parseVal.eq_def]
          dsimp only [List.cons_append, List.nil_append, skipWs]
          rw [if_neg (by decide)]
          dsimp only
          rw [if_neg (by decide), if_pos rfl]
          simp [List.take, List.drop]
        | false =>
          rw [Json.encodeL, parseVal.eq_def]
          dsimp only [List.cons_append, List.nil_append, skipWs]
          rw [if_neg (by decide)]
          dsimp only
          rw [if_neg (by decide), if_neg (by decide), if_pos rfl]
          simp [List.take, List.drop]
      | str s =>
        rw [Json.encodeL, jsonEscStr, parseVal.eq_def]
        dsimp only [List.cons_append, List.nil_append, skipWs]
        rw [if_neg (by decide)]
        dsimp only
        rw [if_neg (by decide), if_neg (by decide), if_neg (by decide),
          if_pos rfl]
        rw [List.append_assoc, List.singleton_append, parseStrBody_escBody]
        · dsimp only [Option.map_some']
        · simp only [List.length_append, List.length_cons]
          omega
      | arr es =>
        rw [Json.encodeL, parseVal.eq_def]
        dsimp only [List.cons_append, List.nil_append, skipWs]
        rw [if_neg (by decide)]
        dsimp only
        rw [if_neg (by decide), if_neg (by decide), if_neg (by decide),
          if_neg (by decide), if_pos rfl]
        cases es with
        | nil =>
          dsimp only [Json.encodeElems, List.nil_append, List.cons_append,
            skipWs]
          rw [if_neg (by decide)]
          dsimp only
          rw [if_pos rfl]
        | cons e t =>
          obtain ⟨c, cs, he, hws, hne93, _⟩ := encodeL_head e
          have hEE : Json.encodeElems (e :: t) =
              c :: (Json.encodeElems (e :: t)).tail := by
            cases t with
            | nil => rw [Json.encodeElems, he]; rfl
            | cons e2 t2 =>
              rw [Json.encodeElems, he]; rfl
          rw [List.append_assoc, List.singleton_append, hEE,
            List.cons_append, skipWs_cons_false hws]
          dsimp only
          rw [if_neg hne93, ← List.cons_append, ← hEE]
          rw [ihA (e :: t) rest (by simp)
            (by simp only [Json.size] at hsz; omega)]
          rfl
      | obj fs =>
        rw [Json.encodeL, parseVal.eq_def]
        dsimp only [List.cons_append, List.nil_append, skipWs]
        rw [if_neg (by decide)]
        dsimp only
        rw [if_neg (by decide), if_neg (by decide), if_neg (by decide),
          if_neg (by decide), if_neg (by decide), if_pos rfl]
        cases fs with
        | nil =>
          dsimp only [Json.encodeFields, List.nil_append, List.cons_append,
            skipWs]
          rw [if_neg (by decide)]
          dsimp only
          rw [if_pos rfl]
        | cons f t =>
          obtain ⟨k, v⟩ := f
          have hEF : Json.encodeFields ((k, v) :: t) =
              Char.ofNat 34 :: (Json.encodeFields ((k, v) :: t)).tail := by
            cases t with
            | nil => rw [Json.encodeFields, jsonEscStr]; rfl
            | cons f2 t2 => rw [Json.encodeFields, jsonEscStr]; rfl
          rw [List.append_assoc, List.singleton_append, hEF,
            List.cons_append, skipWs_cons_false (by decide)]
          dsimp only
          rw [if_neg (by decide), ← List.cons_append, ← hEF]
          rw [ihO ((k, v) :: t) rest (by simp)
            (by simp only [Json.size] at hsz; omega)]
          rfl
    · -- parseArrItems on encoded elements
      intro es rest hne hsz
      cases es with
      | nil => exact absurd rfl hne
      | cons e t =>
        cases t with
        | nil =>
          rw [Json.encodeElems, parseArrItems.eq_def]
          dsimp only
          rw [ihP e (Char.ofNat 93 :: rest)
            (by simp only [Json.sizeList] at hsz; omega)]
          dsimp only
          rw [skipWs_cons_false (by decide)]
          dsimp only
          rw [if_neg (by decide), if_pos rfl]
        | cons e2 t2 =>
          rw [Json.encodeElems, parseArrItems.eq_def]
          dsimp only
          rw [List.append_assoc, List.cons_append]
          rw [ihP e (',' :: (Json.encodeElems (e2 :: t2) ++
            Char.ofNat 93 :: rest))
            (by simp only [Json.sizeList] at hsz; omega)]
          dsimp only
          rw [skipWs_cons_false (by decide)]
          dsimp only
          rw [if_pos rfl]
          rw [ihA (e2 :: t2) rest (by simp)
            (by simp only [Json.sizeList] at hsz ⊢; omega)]
          rfl
    · -- parseObjItems on encoded fields
      intro fs rest hne hsz
      cases fs with
      | nil => exact absurd rfl hne
      | cons f t =>
        obtain ⟨k, v⟩ := f
        cases t with
        | nil =>
          rw [Json.encodeFields, jsonEscStr, parseObjItems.eq_def]
          dsimp only [List.cons_append, List.nil_append]
          rw [skipWs_cons_false (by decide)]
          dsimp only
          rw [if_pos rfl]
          simp only [List.append_assoc, List.singleton_append,
            List.cons_append]
          rw [parseStrBody_escBody]
          · dsimp only [List.nil_append]
            rw [skipWs_cons_false (by decide)]
            dsimp only
            rw [if_pos rfl]
            rw [ihP v (Char.ofNat 125 :: rest)
              (by simp only [Json.sizeFields] at hsz; omega)]
            dsimp only
            rw [skipWs_cons_false (by decide)]
            dsimp only
            rw [if_neg (by decide), if_pos rfl]
          · simp only [List.length_append, List.length_cons]
            omega
        | cons f2 t2 =>
          rw [Json.encodeFields, jsonEscStr, parseObjItems.eq_def]
          dsimp only [List.cons_append, List.nil_append]
          rw [skipWs_cons_false (by decide)]
          dsimp only
          rw [if_pos rfl]
          simp only [List.append_assoc, List.singleton_append,
            List.cons_append]
          rw [parseStrBody_escBody]
          · dsimp only [List.nil_append]
            rw [skipWs_cons_false (by decide)]
            dsimp only
            rw [if_pos rfl]
            rw [ihP v (',' :: (Json.encodeFields (f2 :: t2) ++
              Char.ofNat 125 :: rest))
              (by simp only [Json.sizeFields] at hsz; omega)]
            dsimp only
            rw [skipWs_cons_false (by decide)]
            dsimp only
            rw [if_pos rfl]
            rw [ihO (f2 :: t2) rest (by simp)
              (by obtain ⟨k2, v2⟩ := f2
                  simp only [Json.sizeFields] at hsz ⊢; omega)]
            rfl
          · simp only [List.length_append, List.length_cons]
            omega


mutual

theorem size_le_encodeL : (j : Json) → Json.size j ≤ (Json.encodeL j).length
  | .null => by simp [Json.size, Json.encodeL]
  | .bool true => by simp [Json.size, Json.encodeL]
  | .bool false => by simp [Json.size, Json.encodeL]
  | .str s => by simp [Json.size, Json.encodeL, jsonEscStr]
  | .arr es => by
    have h := sizeList_le_encodeElems es
    simp only [Json.size, Json.encodeL, List.length_cons, List.length_append,
      List.length_singleton]
    omega
  | .obj fs => by
    have h := sizeFields_le_encodeFields fs
    simp only [Json.size, Json.encodeL, List.length_cons, List.length_append,
      List.length_singleton]
    omega

theorem sizeList_le_encodeElems : (es : List Json) →
    Json.sizeList es ≤ (Json.encodeElems es).length + 1
  | [] => by simp [Json.sizeList, Json.encodeElems]
  | [e] => by
    have h := size_le_encodeL e
    simp only [Json.sizeList, Json.encodeElems]
    omega
  | e :: e2 :: t => by
    have h1 := size_le_encodeL e
    have h2 := sizeList_le_encodeElems (e2 :: t)
    simp only [Json.sizeList] at h2 ⊢
    simp only [Json.encodeElems, List.length_append, List.length_cons]
    omega

theorem sizeFields_le_encodeFields : (fs : List (String × Json)) →
    Json.sizeFields fs ≤ (Json.encodeFields fs).length + 1
  | [] => by simp [Json.sizeFields, Json.encodeFields]
  | [(k, v)] => by
    have h := size_le_encodeL v
    simp only [Json.sizeFields, Json.encodeFields, List.length_append,
      List.length_cons]
    omega
  | (k, v) :: f2 :: t => by
    have h1 := size_le_encodeL v
    have h2 := sizeFields_le_encodeFields (f2 :: t)
    obtain ⟨k2, v2⟩ := f2
    simp only [Json.sizeFields] at h2 ⊢
    simp only [Json.encodeFields, List.length_append, List.length_cons]
    omega

end

/-- `JSON.parse ∘ JSON.stringify = id` on the modelled JSON universe. -/
theorem Json.parse_encode (j : Json) : Json.parse (Json.encode j) = .ok j := by
  have hsz : Json.size j ≤ (Json.encodeL j).length + 1 := by
    have := size_le_encodeL j; omega
  have hP := (parse_enc_all ((Json.encodeL j).length + 1)).1 j [] hsz
  rw [List.append_nil] at hP
  rw [Json.parse]
  show (match parseVal ((Json.encodeL j).length + 1) (Json.encodeL j) with
    | some (v, rest) =>
      if (skipWs rest).isEmpty then Except.ok v
      else Except.error "Unexpected token in JSON"
    | none => Except.error "Unexpected token in JSON") = Except.ok j
  rw [hP]
  rfl

/-! ## AES-256 (FIPS-197) and CFB128 mode
(`crypto.createCipheriv("aes-256-cfb", key, iv)`) -/

/-- The AES S-box. -/
def sbox : List Nat := [
    99, 124, 119, 123, 242, 107, 111, 197, 48, 1, 103, 43,
    254, 215, 171, 118, 202, 130, 201, 125, 250, 89, 71, 240,
    173, 212, 162, 175, 156, 164, 114, 192, 183, 253, 147, 38,
    54, 63, 247, 204, 52, 165, 229, 241, 113, 216, 49, 21,
    4, 199, 35, 195, 24, 150, 5, 154, 7, 18, 128, 226,
    235, 39, 178, 117, 9, 131, 44, 26, 27, 110, 90, 160,
    82, 59, 214, 179, 41, 227, 47, 132, 83, 209, 0, 237,
    32, 252, 177, 91, 106, 203, 190, 57, 74, 76, 88, 207,
    208, 239, 170, 251, 67, 77, 51, 133, 69, 249, 2, 127,
    80, 60, 159, 168, 81, 163, 64, 143, 146, 157, 56, 245,
    188, 182, 218, 33, 16, 255, 243, 210, 205, 12, 19, 236,
    95, 151, 68, 23, 196, 167, 126, 61, 100, 93, 25, 115,
    96, 129, 79, 220, 34, 42, 144, 136, 70, 238, 184, 20,
    222, 94, 11, 219, 224, 50, 58, 10, 73, 6, 36, 92,
    194, 211, 172, 98, 145, 149, 228, 121, 231, 200, 55, 109,
    141, 213, 78, 169, 108, 86, 244, 234, 101, 122, 174, 8,
    186, 120, 37, 46, 28, 166, 180, 198, 232, 221, 116, 31,
    75, 189, 139, 138, 112, 62, 181, 102, 72, 3, 246, 14,
    97, 53, 87, 185, 134, 193, 29, 158, 225, 248, 152, 17,
    105, 217, 142, 148, 155, 30, 135, 233, 206, 85, 40, 223,
    140, 161, 137, 13, 191, 230, 66, 104, 65, 153, 45, 15,
    176, 84, 187, 22]

def sboxAt (b : Nat) : Nat := sbox.getD b 0

/-- Pointwise xor keeping the length of the first buffer (missing entries of
the second read as 0; in well-formed use both buffers have equal length). -/
def xorFull (a b : Bytes) : Bytes :=
  (List.range a.length).map fun i => xor8 (a.getD i 0) (b.getD i 0)

def rotWord (w : Bytes) : Bytes :=
  match w with
  | a :: rest => rest ++ [a]
  | [] => []

def subWord (w : Bytes) : Bytes := w.map sboxAt

/-- AES round constants (first byte of `Rcon[i]`). -/
def rcon : Nat → Nat
  | 1 => 1 | 2 => 2 | 3 => 4 | 4 => 8 | 5 => 16 | 6 => 32 | 7 => 64
  | _ => 0

/-- AES-256 key expansion: 60 four-byte words from a 32-byte key. -/
def keyExpansion (key : Bytes) : List Bytes :=
  (List.range 52).foldl
    (fun ws _ =>
      let idx := ws.length
      let temp := ws.getLastD []
      let temp2 :=
        if idx % 8 = 0 then
          xorFull (subWord (rotWord temp)) [rcon (idx / 8), 0, 0, 0]
        else if idx % 8 = 4 then subWord temp
        else temp
      ws ++ [xorFull (ws.getD (idx - 8) []) temp2])
    ((List.range 8).map fun i => (key.drop (4 * i)).take 4)

/-- Round key `r` (16 bytes) from the expanded word schedule. -/
def roundKey (ws : List Bytes) (r : Nat) : Bytes :=
  ((ws.drop (4 * r)).take 4).flatten

def addRoundKey (s rk : Bytes) : Bytes := xorFull s rk

def subBytesOp (s : Bytes) : Bytes := s.map sboxAt

/-- ShiftRows on the column-major byte order used by FIPS-197. -/
def shiftRows (s : Bytes) : Bytes :=
  (List.range 16).map fun i =>
    s.getD (i % 4 + 4 * ((i / 4 + i % 4) % 4)) 0

/-- Multiplication by x in GF(2^8) mod x^8+x^4+x^3+x+1. -/
def gmul2 (a : Nat) : Nat := (2 * a ^^^ (if 128 ≤ a then 27 else 0)) % 256

def gmul3 (a : Nat) : Nat := xor8 (gmul2 a) a

def mixColumn (c : Bytes) : Bytes :=
  match c with
  | [a0, a1, a2, a3] =>
    [xor8 (xor8 (gmul2 a0) (gmul3 a1)) (xor8 a2 a3),
     xor8 (xor8 a0 (gmul2 a1)) (xor8 (gmul3 a2) a3),
     xor8 (xor8 a0 a1) (xor8 (gmul2 a2) (gmul3 a3)),
     xor8 (xor8 (gmul3 a0) a1) (xor8 a2 (gmul2 a3))]
  | _ => c

def mixColumns (s : Bytes) : Bytes :=
  ((List.range 4).map fun c => mixColumn ((s.drop (4 * c)).take 4)).flatten

def aesRound (rk s : Bytes) : Bytes :=
  addRoundKey (mixColumns (shiftRows (subBytesOp s))) rk

def aesFinalRound (rk s : Bytes) : Bytes :=
  addRoundKey (shiftRows (subBytesOp s)) rk

/-- AES-256 block encryption (14 rounds). -/
def aesEncryptBlock (key block : Bytes) : Bytes :=
  let ws := keyExpansion key
  aesFinalRound (roundKey ws 14)
    ((List.range 13).foldl (fun s r => aesRound (roundKey ws (r + 1)) s)
      (addRoundKey block (roundKey ws 0)))

theorem xorFull_length (a b : Bytes) : (xorFull a b).length = a.length := by
  simp [xorFull]

theorem xorFull_wf (a b : Bytes) : BytesWF (xorFull a b) := by
  intro x hx
  simp only [xorFull, List.mem_map] at hx
  obtain ⟨i, _, hi⟩ := hx
  exact hi ▸ xor8_lt _ _

theorem aesEncryptBlock_length (key block : Bytes) :
    (aesEncryptBlock key block).length = 16 := by
  simp [aesEncryptBlock, aesFinalRound, addRoundKey, xorFull_length, shiftRows]

theorem aesEncryptBlock_wf (key block : Bytes) :
    BytesWF (aesEncryptBlock key block) := by
  unfold aesEncryptBlock aesFinalRound addRoundKey
  exact xorFull_wf _ _

/-- CFB128 encryption: each 16-byte plaintext segment is xored with the block
encryption of the previous ciphertext segment (the IV for the first).
Structural recursion on fuel (one unit per segment); `p.length` fuel always
suffices. -/
def cfbEncGo (key : Bytes) : Nat → Bytes → Bytes → Bytes
  | 0, _, _ => []
  | fuel + 1, fb, p =>
    if p.isEmpty then [] else
      xorBytes (p.take 16) (aesEncryptBlock key fb) ++
        cfbEncGo key fuel (xorBytes (p.take 16) (aesEncryptBlock key fb))
          (p.drop 16)

/-- CFB128 decryption (feedback is the previous ciphertext segment). -/
def cfbDecGo (key : Bytes) : Nat → Bytes → Bytes → Bytes
  | 0, _, _ => []
  | fuel + 1, fb, c =>
    if c.isEmpty then [] else
      xorBytes (c.take 16) (aesEncryptBlock key fb) ++
        cfbDecGo key fuel (c.take 16) (c.drop 16)

/-- `crypto.createCipheriv("aes-256-cfb", key, iv)` applied to `data`. -/
def aesCfbEncrypt (key iv data : Bytes) : Bytes :=
  cfbEncGo key data.length iv data

/-- `crypto.createDecipheriv("aes-256-cfb", key, iv)` applied to `data`. -/
def aesCfbDecrypt (key iv data : Bytes) : Bytes :=
  cfbDecGo key data.length iv data

theorem cfbEncGo_nil (key : Bytes) (fuel : Nat) (fb : Bytes) :
    cfbEncGo key fuel fb [] = [] := by
  cases fuel <;> rfl

theorem cfbDecGo_nil (key : Bytes) (fuel : Nat) (fb : Bytes) :
    cfbDecGo key fuel fb [] = [] := by
  cases fuel <;> rfl

theorem cfbEncGo_length (key : Bytes) :
    ∀ fuel p fb, p.length ≤ fuel → (cfbEncGo key fuel fb p).length = p.length := by
  intro fuel
  induction fuel with
  | zero =>
    intro p fb h
    have : p = [] := by cases p with | nil => rfl | cons a t => simp at h
    subst this
    rfl
  | succ N ihN =>
    intro p fb h
    rw [cfbEncGo]
    by_cases hp : p.isEmpty
    · rw [if_pos hp]
      simp [List.isEmpty_iff.mp hp]
    · rw [if_neg hp]
      rw [List.length_append,
        xorBytes_length _ _ (by
          rw [aesEncryptBlock_length]
          exact le_trans (List.length_take_le _ _) (by simp)),
        ihN _ _ (by simp only [List.length_drop]; omega)]
      simp only [List.length_take, List.length_drop]
      cases p with
      | nil => simp at hp
      | cons a t => simp only [List.length_cons]; omega

theorem cfbEncGo_wf (key : Bytes) :
    ∀ fuel p fb, BytesWF (cfbEncGo key fuel fb p) := by
  intro fuel
  induction fuel with
  | zero => intro p fb b hb; simp [cfbEncGo] at hb
  | succ N ihN =>
    intro p fb
    rw [cfbEncGo]
    by_cases hp : p.isEmpty
    · rw [if_pos hp]; intro b hb; simp at hb
    · rw [if_neg hp]
      intro b hb
      rcases List.mem_append.mp hb with h1 | h1
      · exact xorBytes_wf _ _ b h1
      · exact ihN _ _ b h1

/-- CFB decryption inverts CFB encryption (for byte-valued plaintext, any key
and IV). -/
theorem cfbDecGo_cfbEncGo (key : Bytes) :
    ∀ fuel p fb, p.length ≤ fuel → BytesWF p →
      cfbDecGo key fuel fb (cfbEncGo key fuel fb p) = p := by
  intro fuel
  induction fuel with
  | zero =>
    intro p fb h hwf
    have : p = [] := by cases p with | nil => rfl | cons a t => simp at h
    subst this
    rfl
  | succ N ihN =>
    intro p fb h hwf
    by_cases hp : p.isEmpty
    · rw [List.isEmpty_iff.mp hp, cfbEncGo_nil, cfbDecGo_nil]
    · rw [cfbEncGo, if_neg hp]
      have hks_len : (aesEncryptBlock key fb).length = 16 :=
        aesEncryptBlock_length key fb
      have hseg_le : (p.take 16).length ≤ (aesEncryptBlock key fb).length := by
        rw [hks_len]
        exact le_trans (List.length_take_le _ _) (by simp)
      have hct_len : (xorBytes (p.take 16) (aesEncryptBlock key fb)).length =
          (p.take 16).length := xorBytes_length _ _ hseg_le
      have hct_pos : 0 <
          (xorBytes (p.take 16) (aesEncryptBlock key fb)).length := by
        rw [hct_len]
        cases p with
        | nil => simp at hp
        | cons a t => simp [List.length_take]
      have hseg_wf : BytesWF (p.take 16) := fun b hb =>
        hwf b (List.mem_of_mem_take hb)
      have hcancel : xorBytes (xorBytes (p.take 16) (aesEncryptBlock key fb))
          (aesEncryptBlock key fb) = p.take 16 :=
        xorBytes_cancel _ _ hseg_wf (aesEncryptBlock_wf key fb) hseg_le
      by_cases hlen : p.length ≤ 16
      · -- single (possibly partial) segment
        have hdrop : p.drop 16 = [] := List.drop_eq_nil_of_le hlen
        have htakep : p.take 16 = p := List.take_of_length_le hlen
        rw [hdrop, cfbEncGo_nil, List.append_nil, cfbDecGo, if_neg (by
          intro he
          rw [List.isEmpty_iff] at he
          rw [he] at hct_pos
          simp at hct_pos)]
        rw [List.take_of_length_le (by omega),
          List.drop_eq_nil_of_le (by omega), hcancel, htakep, cfbDecGo_nil,
          List.append_nil]
      · -- a full segment followed by more data
        have hct16 : (xorBytes (p.take 16) (aesEncryptBlock key fb)).length
            = 16 := by
          rw [hct_len, List.length_take]
          omega
        rw [cfbDecGo, if_neg (by
          intro he
          rw [List.isEmpty_iff, List.append_eq_nil] at he
          have := he.1
          rw [this] at hct_pos
          simp at hct_pos)]
        rw [List.take_append_of_le_length (by omega),
          List.drop_append_of_le_length (by omega)]
        rw [List.take_of_length_le (by omega),
          List.drop_eq_nil_of_le (by omega), List.nil_append, hcancel]
        rw [ihN (p.drop 16) _ (by simp only [List.length_drop]; omega)
          (fun b hb => hwf b (List.mem_of_mem_drop hb))]
        exact List.take_append_drop 16 p

/-! ## Symbolic RSA and SHA-256 (perfect-cryptography term algebra) -/

/-- Symbolic buffers produced by the RSA/SHA capabilities.  A keypair is
identified by a `Nat`; signing and encrypting are free constructors, so
signatures are unforgeable and hashing is injective in the model. -/
inductive SBuf where
  | raw (bs : Bytes)
  | sha256s (s : String)
  | rsaSign (keyId : Nat) (data : SBuf)
  | rsaEnc (keyId : Nat) (data : SBuf)
deriving DecidableEq, Repr

/-- `key.verify(data, signature)` for the keypair `keyId`. -/
def rsaVerify (keyId : Nat) (data sig : SBuf) : Bool :=
  sig == SBuf.rsaSign keyId data

/-- `key.decrypt(blob)` for the keypair `keyId` (node-rsa throws when the
blob is not an encryption to this key; modelled as `none`). -/
def rsaDecrypt (keyId : Nat) : SBuf → Option SBuf
  | .rsaEnc k d => if k = keyId then some d else none
  | _ => none

/-- `publicKey.exportKey("pkcs8-public-pem")`: an injective rendering of the
key identity (the PEM codec is an external bijective capability). -/
def pemExport (k : Nat) : String := "PEM" ++ decRepr k

theorem pemExport_injective : Function.Injective pemExport := by
  intro a b h
  rw [pemExport, pemExport] at h
  have hd : ("PEM" ++ decRepr a).data = ("PEM" ++ decRepr b).data := by rw [h]
  simp only [String.data_append] at hd
  exact decRepr_injective (congrArg String.mk (List.append_cancel_left hd))

/-! ## Service (`src/lib/service.ts`, bundled into `authentication.ts`) -/

/-- The state of a `Service`: service id, the web client base URL, the RSA
keypair, and the mutable session token. -/
structure ServiceM where
  id : String
  url : String
  keyId : Nat
  sessionId : Option String
deriving DecidableEq, Repr

/-- `Service.sign`: sign a buffer with the service private key. -/
def ServiceM.sign (s : ServiceM) (data : SBuf) : SBuf :=
  SBuf.rsaSign s.keyId data

/-- JS `String.prototype.toLowerCase` (character-wise case folding). -/
def strToLower (s : String) : String := ⟨s.data.map Char.toLower⟩

/-- `Service.calculateSignatureData`: SHA-256 over the ordered concatenation
of lowercased server URL, service id, lowercased username, device id, the
PEM public key export plus a newline, and the decimal level. -/
def calculateSignatureData (s : ServiceM) (username deviceId : String)
    (publicKey publicKeyLevel : Nat) : SBuf :=
  SBuf.sha256s (strToLower s.url ++ s.id ++ strToLower username ++ deviceId ++
    (pemExport publicKey ++ "\n") ++ decRepr publicKeyLevel)

/-- `Service.calculateSignature`: RSA-sign the signature data with the
service private key. -/
def calculateSignature (s : ServiceM) (username deviceId : String)
    (publicKey publicKeyLevel : Nat) : SBuf :=
  s.sign (calculateSignatureData s username deviceId publicKey publicKeyLevel)

/-- `Service.verifySignature`: recompute the signature data and check the
signature with `this.key.verify` — the service own keypair. -/
def verifySignature (s : ServiceM) (signature : SBuf)
    (username deviceId : String) (publicKey publicKeyLevel : Nat) : Bool :=
  rsaVerify s.keyId
    (calculateSignatureData s username deviceId publicKey publicKeyLevel)
    signature

/-! ## Payload envelope (`encryptPayloadData` / `decryptPayloadJson`) -/

/-- Error kinds surfaced by the SDK (`src/lib/errors.ts` plus plain
`Error`s). -/
inductive SdkError where
  | payloadDataLengthExceeded (msg : String)
  | generic (msg : String)
deriving DecidableEq, Repr

/-- The `{ data, key, signature }` wire envelope.  `data` is the hex string
of ciphertext‖IV; `key` and `signature` are RSA blobs (hex-encoded on the
wire; the hex codec on RSA blobs is a bijection and is modelled as the
identity). -/
structure EnvelopeM where
  data : String
  key : SBuf
  signature : SBuf
deriving DecidableEq, Repr

/-- `Client.getPayloadSize`: the server-reported size, defaulting to 4000
when absent (JS `response.payloadSize as number || 4000`, so a reported 0 is
also replaced by 4000). -/
def negotiatedPayloadSize (serverReported : Option Nat) : Nat :=
  match serverReported with
  | some n => if n = 0 then 4000 else n
  | none => 4000

/-- `Service.encryptPayloadData`.  The fresh symmetric key and IV
(`crypto.randomBytes`) are inputs; `createCipheriv` validates their
lengths. -/
def encryptPayloadData (s : ServiceM) (recipientPublicKey : Nat) (json : Json)
    (symKey iv : Bytes) (payloadSize : Nat) : Except SdkError EnvelopeM :=
  if symKey.length = 32 ∧ iv.length = 16 then
    if (aesCfbEncrypt symKey iv (utf8Enc (Json.encode json)) ++ iv).length * 2
        ≥ payloadSize then
      .error (.payloadDataLengthExceeded
        ("Payload data length limit exceeded: length " ++
          decRepr (aesCfbEncrypt symKey iv
            (utf8Enc (Json.encode json)) ++ iv).length ++
          ", but max " ++ decRepr payloadSize))
    else
      .ok { data := hexEncode
              (aesCfbEncrypt symKey iv (utf8Enc (Json.encode json)) ++ iv),
            key := SBuf.rsaEnc recipientPublicKey (.raw symKey),
            signature := SBuf.rsaSign s.keyId
              (SBuf.rsaEnc recipientPublicKey (.raw symKey)) }
  else .error (.generic "Invalid key length")

/-- `Service.decryptPayloadJson`. -/
def decryptPayloadJson (s : ServiceM) (initiatorPublicKey : Nat)
    (env : EnvelopeM) : Except SdkError Json :=
  if rsaVerify initiatorPublicKey env.key env.signature then
    match rsaDecrypt s.keyId env.key with
    | some (.raw key) =>
      if (hexDecode env.data).length ≤ 16 then
        .error (.generic "Data field insufficiently long for both data and IV")
      else if key.length = 32 then
        match Json.parse (utf8Dec (aesCfbDecrypt key
          ((hexDecode env.data).drop ((hexDecode env.data).length - 16))
          ((hexDecode env.data).take ((hexDecode env.data).length - 16)))) with
        | .ok j => .ok j
        | .error e => .error (.generic e)
      else .error (.generic "Invalid key length")
    | _ => .error (.generic "Error during decryption")
  else .error (.generic "Failed payload signature verification")


theorem encodeL_ne_nil (j : Json) : Json.encodeL j ≠ [] := by
  obtain ⟨c, cs, he, -, -, -⟩ := encodeL_head j
  rw [he]
  simp

theorem utf8Enc_encode_ne_nil (j : Json) : utf8Enc (Json.encode j) ≠ [] := by
  rw [utf8Enc, Json.encode]
  obtain ⟨c, cs, he, -, -, -⟩ := encodeL_head j
  show (Json.encodeL j).flatMap utf8EncChar ≠ []
  rw [he, List.flatMap_cons]
  intro hcontr
  rcases List.append_eq_nil.mp hcontr with ⟨h1, -⟩
  exact utf8EncChar_ne_nil c h1

/-- The payload envelope round-trips: decrypting with the recipient service
and the sender's public key recovers the JSON payload. -/
theorem decryptPayloadJson_encryptPayloadData
    (sA sB : ServiceM) (json : Json) (symKey iv : Bytes) (payloadSize : Nat)
    (env : EnvelopeM)
    (hkwf : BytesWF symKey) (hivwf : BytesWF iv)
    (hok : encryptPayloadData sA sB.keyId json symKey iv payloadSize =
      .ok env) :
    decryptPayloadJson sB sA.keyId env = .ok json := by
  rw [encryptPayloadData] at hok
  by_cases hlen : symKey.length = 32 ∧ iv.length = 16
  · rw [if_pos hlen] at hok
    split at hok
    · exact absurd hok (by simp)
    · rename_i hsize
      have henv := Except.ok.inj hok
      subst henv
      rw [decryptPayloadJson]
      dsimp only
      rw [if_pos (by simp [rsaVerify])]
      rw [rsaDecrypt]
      rw [if_pos rfl]
      dsimp only
      have hctwf : BytesWF (aesCfbEncrypt symKey iv
          (utf8Enc (Json.encode json))) := by
        rw [aesCfbEncrypt]
        exact cfbEncGo_wf symKey _ _ iv
      have hallwf : BytesWF (aesCfbEncrypt symKey iv
          (utf8Enc (Json.encode json)) ++ iv) := by
        intro b hb
        rcases List.mem_append.mp hb with h | h
        · exact hctwf b h
        · exact hivwf b h
      rw [hexDecode_hexEncode hallwf]
      have hctlen : (aesCfbEncrypt symKey iv
          (utf8Enc (Json.encode json))).length =
          (utf8Enc (Json.encode json)).length := by
        rw [aesCfbEncrypt]
        exact cfbEncGo_length symKey _ _ iv le_rfl
      have hdecfuel : aesCfbDecrypt symKey iv
          (aesCfbEncrypt symKey iv (utf8Enc (Json.encode json))) =
          cfbDecGo symKey (utf8Enc (Json.encode json)).length iv
            (cfbEncGo symKey (utf8Enc (Json.encode json)).length iv
              (utf8Enc (Json.encode json))) := by
        rw [aesCfbDecrypt, aesCfbEncrypt,
          cfbEncGo_length symKey _ _ iv le_rfl]
      have hclen_pos : 0 < (utf8Enc (Json.encode json)).length := by
        cases hu : utf8Enc (Json.encode json) with
        | nil => exact absurd hu (utf8Enc_encode_ne_nil json)
        | cons a t => simp
      rw [if_neg (by
        simp only [List.length_append, hctlen, hlen.2]
        omega)]
      rw [if_pos hlen.1]
      have hbound : (aesCfbEncrypt symKey iv (utf8Enc (Json.encode json)) ++
          iv).length - 16 =
          (aesCfbEncrypt symKey iv (utf8Enc (Json.encode json))).length := by
        simp only [List.length_append, hlen.2]
        omega
      rw [hbound, List.drop_left, List.take_left]
      rw [hdecfuel,
        cfbDecGo_cfbEncGo symKey _ _ iv le_rfl (utf8Enc_wf _)]
      rw [utf8Dec_utf8Enc, Json.parse_encode]
  · rw [if_neg hlen] at hok
    exact absurd hok (by simp)

/-! ## `Service.getUserDevices` (`src/lib/authentication.ts` 522-585) -/

/-- One raw device record from `sp/user-devices/<username>`, with its public
keys already decoded (`util.objectToPublicKeyMap`) and its per-level
signatures hex-decoded, in JS integer-key iteration order (ascending). -/
structure DeviceJsonM where
  deviceId : String
  friendlyName : String
  publicKeys : List (Nat × Nat)
  signatures : List (Nat × SBuf)
deriving Repr

/-- A verified device (`src/lib/device.ts`). -/
structure DeviceM where
  id : String
  name : String
  keys : List (Nat × Nat)
deriving DecidableEq, Repr

/-- `Map.get` on the decoded level→key map. -/
def keyLookup (keys : List (Nat × Nat)) (level : Nat) : Option Nat :=
  (keys.find? fun p => p.1 == level).map (·.2)

/-- The per-device signature loop of `getUserDevices`: returns
(device accepted, updated `foundValidDevice` flag).  A missing key for a
present signature level crashes the JS (`publicKeys.get(levelNumber)!` is
undefined and `exportKey` throws); modelled as an error. -/
def scanDeviceSignatures (svc : ServiceM) (username : String)
    (dj : DeviceJsonM) : List (Nat × SBuf) → Bool → Except SdkError (Bool × Bool)
  | [], found => .ok (true, found)
  | (level, sig) :: rest, found =>
    match keyLookup dj.publicKeys level with
    | none => .error (.generic "TypeError")
    | some key =>
      if verifySignature svc sig username dj.deviceId key level then
        scanDeviceSignatures svc username dj rest true
      else .ok (false, found)

def getUserDevicesGo (svc : ServiceM) (username : String) :
    List DeviceJsonM → List DeviceM → Bool →
      Except SdkError (List DeviceM × Bool)
  | [], acc, found => .ok (acc, found)
  | dj :: rest, acc, found =>
    match scanDeviceSignatures svc username dj dj.signatures found with
    | .error e => .error e
    | .ok (accepted, found2) =>
      getUserDevicesGo svc username rest
        (if accepted then
          acc ++ [⟨dj.deviceId, dj.friendlyName, dj.publicKeys⟩]
        else acc) found2

/-- `Service.getUserDevices` applied to the parsed server response. -/
def getUserDevices (svc : ServiceM) (username : String)
    (devicesJson : List DeviceJsonM) : Except SdkError (List DeviceM) :=
  match getUserDevicesGo svc username devicesJson [] devicesJson.isEmpty with
  | .error e => .error e
  | .ok (devices, found) =>
    if found then .ok devices
    else .error (.generic "Mismatching key signatures")

/-! ## Session refresh-and-retry access helpers
(`postUrl` / `postUri` / `getUrl` / `getUri`, lines 1013-1109) -/

/-- The three error conditions classified by the transport
(`src/lib/errors.ts` / `web-client.ts`). -/
inductive TransportError where
  | sessionExpired (msg : String)
  | timeout (msg : String)
  | other (msg : String)
deriving DecidableEq, Repr

/-- `err instanceof SessionExpiredError`. -/
def isSessionExpiredErr : TransportError → Bool
  | .sessionExpired _ => true
  | _ => false

/-- `this.sessionId ? this.sessionId : undefined` — JS truthiness sends an
empty-string token as `undefined`. -/
def tokenArg : Option String → Option String
  | some s => if s = "" then none else some s
  | none => none

/-- The shared two-iteration `for` loop of the four access helpers.
`transport n tok` is the n-th raw web-client call with session token `tok`;
`refresh n` is the n-th `refreshSession()` (returning the new session id).
Returns the call's value (`none` models resolving to `undefined` after two
session-expired failures) together with the number of transport attempts
made. -/
def accessHelper {α : Type} (transport : Nat → Option String → Except TransportError α)
    (refresh : Nat → Except TransportError String) (sessionId : Option String) :
    Except TransportError (Option α × Nat) :=
  match transport 0 (tokenArg sessionId) with
  | .ok v => .ok (some v, 1)
  | .error e =>
    if isSessionExpiredErr e then
      match refresh 0 with
      | .error e2 => .error e2
      | .ok newSession =>
        match transport 1 (tokenArg (some newSession)) with
        | .ok v => .ok (some v, 2)
        | .error e2 =>
          if isSessionExpiredErr e2 then
            match refresh 1 with
            | .error e3 => .error e3
            | .ok _ => .ok (none, 2)
          else .error e2
    else .error e

/-- `Service.postUrl` (transport = `webClient.postUrl url form`). -/
def postUrlM {α : Type} (transport : Nat → Option String → Except TransportError α)
    (refresh : Nat → Except TransportError String) (sessionId : Option String) :
    Except TransportError (Option α × Nat) :=
  accessHelper transport refresh sessionId

/-- `Service.postUri` (transport = `webClient.postUri uri form`). -/
def postUriM {α : Type} (transport : Nat → Option String → Except TransportError α)
    (refresh : Nat → Except TransportError String) (sessionId : Option String) :
    Except TransportError (Option α × Nat) :=
  accessHelper transport refresh sessionId

/-- `Service.getUrl` (transport = `webClient.getUrl url`). -/
def getUrlM {α : Type} (transport : Nat → Option String → Except TransportError α)
    (refresh : Nat → Except TransportError String) (sessionId : Option String) :
    Except TransportError (Option α × Nat) :=
  accessHelper transport refresh sessionId

/-- `Service.getUri` (transport = `webClient.getUri uri`). -/
def getUriM {α : Type} (transport : Nat → Option String → Except TransportError α)
    (refresh : Nat → Except TransportError String) (sessionId : Option String) :
    Except TransportError (Option α × Nat) :=
  accessHelper transport refresh sessionId

/-! ## `Authentication.authenticateInternal`
(`src/lib/authentication.ts` 220-341) -/

/-- `PayloadRequest`. -/
structure PayloadRequestM where
  get : List String
  set : List (String × String)
deriving DecidableEq, Repr

/-- `PayloadResponse`.  The `set` field is declared `boolean` in TS but is
assigned the raw JSON value of `setResponse` at runtime; `none` models the
JS `undefined` stored when the field is absent. -/
structure PayloadResponseM where
  get : List (String × Json)
  set : Option Json
deriving DecidableEq, Repr

/-- The assertion object returned by `retrieveAssertion()`. -/
structure AssertionData where
  verifyAuthenticationURL : Option String
  username : String
  authenticated : String
  publicKey : Nat
  keySignature : SBuf
  deviceId : String
  publicKeyLevel : Nat
  authenticationSolution : SBuf
  payloadURL : String
deriving Repr

/-- One `accept` notification posted to `verifyAuthUrl`. -/
structure AcceptNotice where
  verified : Bool
  failReason : Option String
deriving DecidableEq, Repr

/-- Outcome enum `Authenticated`. -/
inductive AuthOutcome where
  | Success
  | Failure
  | Report
  | Cancel
deriving DecidableEq, Repr

structure AuthenticationResultM where
  authenticated : AuthOutcome
  username : String
  payload : PayloadResponseM
deriving DecidableEq, Repr

/-- JS truthiness of a JSON value (with `none` = `undefined`). -/
def jsTruthy : Option Json → Bool
  | none => false
  | some .null => false
  | some (.bool b) => b
  | some (.str s) => !(s == "")
  | some (.arr _) => true
  | some (.obj _) => true

/-- JS property lookup on a (parsed) JSON object. -/
def Json.lookup (j : Json) (k : String) : Option Json :=
  match j with
  | .obj kvs => (kvs.find? fun p => p.1 == k).map (·.2)
  | _ => none

/-- `{ get: payload.get, set: payload.set }` as the JSON sent to the
device. -/
def payloadRequestJson (p : PayloadRequestM) : Json :=
  .obj [("get", .arr (p.get.map .str)),
        ("set", .obj (p.set.map fun kv => (kv.1, .str kv.2)))]

/-- `Authentication.accept`: posts `{failReason, verified}` to the
verification URL, which must have been populated. -/
def acceptNotice (verifyAuthUrl : Option String) (accepted : Bool)
    (failReason : Option String) : Except SdkError AcceptNotice :=
  match verifyAuthUrl with
  | none => .error (.generic
      "Expected authentication verification URL. Has `authenticate` been called?")
  | some _ => .ok ⟨accepted, failReason⟩

/-- `Authentication.authenticateInternal`, as a function of the assertion
response, the optional payload request, the randomness consumed by
`encryptPayloadData`, and the encrypted payload the server returns from the
payload POST.  The returned list contains the accept notices posted. -/
def authenticateInternal (svc : ServiceM) (payloadSize : Nat)
    (authChallenge : Bytes) (data : AssertionData)
    (payload : Option PayloadRequestM) (symKey iv : Bytes)
    (payloadPostResponse : EnvelopeM) :
    Except SdkError (List AcceptNotice × AuthenticationResultM) :=
  let verifyAuthUrl := data.verifyAuthenticationURL
  let username := data.username
  if data.authenticated = "cancelled" then
    match acceptNotice verifyAuthUrl false (some data.authenticated) with
    | .error e => .error e
    | .ok n => .ok ([n], ⟨.Cancel, username, ⟨[], some (.bool false)⟩⟩)
  else if data.authenticated = "reported" then
    match acceptNotice verifyAuthUrl false (some data.authenticated) with
    | .error e => .error e
    | .ok n => .ok ([n], ⟨.Report, username, ⟨[], some (.bool false)⟩⟩)
  else if data.authenticated ≠ "true" then
    match acceptNotice verifyAuthUrl false none with
    | .error e => .error e
    | .ok n => .ok ([n], ⟨.Failure, username, ⟨[], some (.bool false)⟩⟩)
  else
    if verifySignature svc data.keySignature data.username data.deviceId
        data.publicKey data.publicKeyLevel then
      let authenticated := rsaVerify data.publicKey (.raw authChallenge)
        data.authenticationSolution
      match payload with
      | none =>
        match acceptNotice verifyAuthUrl (authenticated && true) none with
        | .error e => .error e
        | .ok n => .ok ([n],
            ⟨if authenticated then .Success else .Failure, username,
              ⟨[], some (.bool false)⟩⟩)
      | some pr =>
        match encryptPayloadData svc data.publicKey (payloadRequestJson pr)
            symKey iv payloadSize with
        | .error e => .error e
        | .ok _ =>
          match decryptPayloadJson svc data.publicKey payloadPostResponse with
          | .error e => .error e
          | .ok prj =>
            let payloadSetEmpty := pr.set.isEmpty
            let respSet : Option Json :=
              if payloadSetEmpty then some (.bool false)
              else prj.lookup "setResponse"
            let respGet : List (String × Json) :=
              match prj.lookup "getResponse" with
              | some (.obj kvs) => kvs
              | _ => []
            let payloadValid := payloadSetEmpty || jsTruthy respSet
            match acceptNotice verifyAuthUrl (authenticated && payloadValid)
                none with
            | .error e => .error e
            | .ok n => .ok ([n],
                ⟨if authenticated then .Success else .Failure, username,
                  ⟨respGet, respSet⟩⟩)
    else
      match acceptNotice verifyAuthUrl false
          (some ("Mismatching key signatures for `" ++ username ++
            "`; re-authentication may be necessary")) with
      | .error e => .error e
      | .ok _ => .error (.generic
          ("Mismatching key signatures for `" ++ username ++
            "`; re-authentication may be necessary"))

/-! ## State mapping (`Authentication.getState`, `PushAuth.getState`,
`WaveAuth.getState`, `Enrolment.getState`) -/

inductive AuthenticationState where
  | Initialised
  | Scanned
  | PendingSPSolution
  | PendingAppSolution
  | Done
  | NotFound
deriving DecidableEq, Repr

/-- `Authentication.getState` as a function of the server `statusText`. -/
def authGetState (statusText logId : String) :
    Except SdkError AuthenticationState :=
  if statusText = "initialised" then .ok .Initialised
  else if statusText = "scanned" then .ok .Scanned
  else if statusText = "pending sp solution" then .ok .PendingSPSolution
  else if statusText = "pending app solution" then .ok .PendingAppSolution
  else if statusText = "done" then .ok .Done
  else if statusText = "not found" then .ok .NotFound
  else .error (.generic
    ("Unexpected status " ++ statusText ++ " for authentication (" ++ logId ++
      ")"))

/-- `PushAuth.getState`: remaps the internal `PendingSPSolution`. -/
def pushGetState (statusText logId : String) :
    Except SdkError AuthenticationState :=
  match authGetState statusText logId with
  | .ok s => .ok (if s = .PendingSPSolution then .Initialised else s)
  | .error e => .error e

/-- `WaveAuth.getState`: remaps the internal `PendingSPSolution`. -/
def waveGetState (statusText logId : String) :
    Except SdkError AuthenticationState :=
  match authGetState statusText logId with
  | .ok s => .ok (if s = .PendingSPSolution then .Scanned else s)
  | .error e => .error e

inductive EnrolmentState where
  | Initialised
  | Scanned
  | Validated
  | Confirmed
  | Failed
  | Unknown
deriving DecidableEq, Repr

/-- `Enrolment.getState` as a function of the server `QREnrolStatus`: total,
with a catch-all `Unknown`. -/
def enrolGetState (qrEnrolStatus : String) : EnrolmentState :=
  if qrEnrolStatus = "initialised" then .Initialised
  else if qrEnrolStatus = "scanned" then .Scanned
  else if qrEnrolStatus = "validated" then .Validated
  else if qrEnrolStatus = "confirm" then .Confirmed
  else if qrEnrolStatus = "failed" then .Failed
  else .Unknown

/-! ## Binary session serialization (value level)

The msgpack byte codec is an external capability ("pack/unpack ordered value
tuples into bytes") and is modelled at the decoded-value level: `MVal` is the
value a `msgpack().decode` produces, `MVal.packed v` stands for the msgpack
byte encoding of `v` embedded as a binary element (used by PushAuth for the
nested serialized Device). -/

inductive MVal where
  | nil
  | mbool (b : Bool)
  | nat (n : Nat)
  | str (s : String)
  | bin (bs : Bytes)
  | keymap (kvs : List (String × String))
  | arr (vs : List MVal)
  | packed (v : MVal)
deriving Repr

/-- JS strict equality of an array element against a string constant. -/
def mvIsStr (v : MVal) (s : String) : Bool :=
  match v with
  | .str t => t == s
  | _ => false

def mvStr? : MVal → Option String
  | .str s => some s
  | _ => none

def mvBin? : MVal → Option Bytes
  | .bin bs => some bs
  | _ => none

def mvNat? : MVal → Option Nat
  | .nat n => some n
  | _ => none

def mvKeymap? : MVal → Option (List (String × String))
  | .keymap kvs => some kvs
  | _ => none

/-- A `string | null` element. -/
def mvOptStr? : MVal → Option (Option String)
  | .str s => some (some s)
  | .nil => some none
  | _ => none

def mvPacked? : MVal → Option MVal
  | .packed v => some v
  | _ => none

def optStrMVal : Option String → MVal
  | some s => .str s
  | none => .nil

def SERIALIZED_VERSION : String := "6.0.0"

/-- `key.exportKey("pkcs1-private-der")`: an injective byte rendering of the
keypair identity (the DER codec is an external bijective capability). -/
def derExport (k : Nat) : Bytes := digitsBase 256 k

/-- `importKey(_, "pkcs1-private-der")`. -/
def derImport (bs : Bytes) : Nat := Nat.ofDigits 256 bs

theorem derImport_derExport (k : Nat) : derImport (derExport k) = k := by
  rw [derExport, digitsBase_eq_digits (by norm_num), derImport,
    Nat.ofDigits_digits]

/-- `util.publicKeyMapToObject`: level→key map to a string-keyed object of
PEM exports. -/
def publicKeyMapToObject (keys : List (Nat × Nat)) : List (String × String) :=
  keys.map fun kv => (decRepr kv.1, pemExport kv.2)

/-- Inverse of `pemExport` (`importKey(_, "pkcs8-public-pem")`). -/
def pemImport (s : String) : Option Nat :=
  match s.data with
  | 'P' :: 'E' :: 'M' :: rest => decParseL rest
  | _ => none

theorem pemImport_pemExport (k : Nat) : pemImport (pemExport k) = some k := by
  rw [pemExport, pemImport]
  have hd : ("PEM" ++ decRepr k).data = 'P' :: 'E' :: 'M' :: decReprL k := by
    simp only [String.data_append]
    rfl
  rw [hd]
  exact decParseL_decReprL k

/-- `util.objectToPublicKeyMap` (a malformed level or PEM string is an
error; the TS crashes inside `importKey` in that case). -/
def objectToPublicKeyMap : List (String × String) →
    Except SdkError (List (Nat × Nat))
  | [] => .ok []
  | (ls, ps) :: rest =>
    match decParse ls, pemImport ps with
    | some l, some k =>
      match objectToPublicKeyMap rest with
      | .ok m => .ok ((l, k) :: m)
      | .error e => .error e
    | _, _ => .error (.generic "Invalid public key map entry")

theorem objectToPublicKeyMap_publicKeyMapToObject (keys : List (Nat × Nat)) :
    objectToPublicKeyMap (publicKeyMapToObject keys) = .ok keys := by
  induction keys with
  | nil => rfl
  | cons kv rest ih =>
    obtain ⟨l, k⟩ := kv
    simp only [publicKeyMapToObject, List.map_cons] at ih ⊢
    rw [objectToPublicKeyMap, decParse_decRepr, pemImport_pemExport, ih]

/-! ### Entities -/

structure EnrolmentM where
  service : ServiceM
  logId : String
  waveCodeUrl : String
  directEnrolUrl : String
  statusUrl : String
  validateUrl : String
  username : String
  publicKeys : List (Nat × Nat)
  deviceId : String
  confirmationUrl : String
deriving DecidableEq, Repr

structure PushAuthM where
  service : ServiceM
  logId : String
  authChallenge : Bytes
  authLevel : Nat
  username : String
  device : DeviceM
  statusUrl : String
  assertionUrl : String
  verifyAuthUrl : Option String
deriving DecidableEq, Repr

structure WaveAuthM where
  service : ServiceM
  logId : String
  authChallenge : Bytes
  authLevel : Nat
  initiatorUrl : String
  waveCodeUrl : String
  statusUrl : String
  assertionUrl : String
  appChallengeUrl : Option String
  verifyAuthUrl : Option String
deriving DecidableEq, Repr

/-! ### Serializers -/

/-- `Service.serialize` (6 elements; the legacy signature-key slot is always
null on write). -/
def serializeService (s : ServiceM) : MVal :=
  .arr [.str "CiphSrvc", .str SERIALIZED_VERSION, .str s.id,
    .bin (derExport s.keyId), .nil, optStrMVal s.sessionId]

/-- `Device.serialize`. -/
def serializeDevice (d : DeviceM) : MVal :=
  .arr [.str "CiphDvce", .str d.id, .str d.name,
    .keymap (publicKeyMapToObject d.keys)]

/-- `Enrolment.serialize`. -/
def serializeEnrolment (e : EnrolmentM) : MVal :=
  .arr [.str "CiphEnrl", .str SERIALIZED_VERSION, .str e.logId,
    .str e.waveCodeUrl, .str e.directEnrolUrl, .str e.statusUrl,
    .str e.validateUrl, .str e.username, .str e.confirmationUrl,
    .str e.deviceId, .keymap (publicKeyMapToObject e.publicKeys)]

/-- `PushAuth.serialize` (embeds the serialized Device buffer). -/
def serializePushAuth (p : PushAuthM) : MVal :=
  .arr [.str "CiphUsrP", .str SERIALIZED_VERSION, .str p.logId,
    .bin p.authChallenge, .nat p.authLevel, .str p.username,
    .packed (serializeDevice p.device), .str p.statusUrl,
    .str p.assertionUrl, optStrMVal p.verifyAuthUrl]

/-- `WaveAuth.serialize`. -/
def serializeWaveAuth (w : WaveAuthM) : MVal :=
  .arr [.str "CiphUsrW", .str SERIALIZED_VERSION, .str w.logId,
    .bin w.authChallenge, .nat w.authLevel, .str w.initiatorUrl,
    .str w.waveCodeUrl, .str w.statusUrl, .str w.assertionUrl,
    optStrMVal w.appChallengeUrl, optStrMVal w.verifyAuthUrl]

/-! ### Deserializers

TS `as`-casts perform no runtime check, so a type-mismatched field flows
through silently in JS; the model surfaces it as a distinct error instead —
no claim exercises that path, and all four validation checks (array, arity,
header, version) precede any field access, exactly as in the source. -/

def fieldErr {α : Type} : Except SdkError α :=
  .error (.generic "field type mismatch")

/-- `Client.deserializeService` (two accepted arities; note the wrong-version
branch reuses the "header not found" message, verbatim from the source). -/
def deserializeService (clientUrl : String) (v : MVal) :
    Except SdkError ServiceM :=
  match v with
  | .arr vs =>
    if vs.length = 0 then
      .error (.generic "Attempted to deserialize service, but no components")
    else if ¬mvIsStr (vs.getD 0 .nil) "CiphSrvc" then
      .error (.generic "Attempted to deserialize service, but header not found")
    else if vs.length = 5 then
      match mvStr? (vs.getD 1 .nil), mvBin? (vs.getD 2 .nil),
          mvOptStr? (vs.getD 4 .nil) with
      | some id, some der, some sessionId =>
        .ok ⟨id, clientUrl, derImport der, sessionId⟩
      | _, _, _ => fieldErr
    else if vs.length = 6 then
      if ¬mvIsStr (vs.getD 1 .nil) SERIALIZED_VERSION then
        .error (.generic
          "Attempted to deserialize service, but header not found")
      else
        match mvStr? (vs.getD 2 .nil), mvBin? (vs.getD 3 .nil),
            mvOptStr? (vs.getD 5 .nil) with
        | some id, some der, some sessionId =>
          .ok ⟨id, clientUrl, derImport der, sessionId⟩
        | _, _, _ => fieldErr
    else
      .error (.generic
        "Attempted to deserialize service, but incorrect number of components")
  | _ =>
    .error (.generic "Attempted to deserialize service, but buffer was invalid")

/-- `Device.deserialize`. -/
def deserializeDevice (v : MVal) : Except SdkError DeviceM :=
  match v with
  | .arr vs =>
    if vs.length ≠ 4 then
      .error (.generic
        "Attempted to deserialize device, but incorrect number of components")
    else if ¬mvIsStr (vs.getD 0 .nil) "CiphDvce" then
      .error (.generic "Attempted to deserialize device, but header not found")
    else
      match mvStr? (vs.getD 1 .nil), mvStr? (vs.getD 2 .nil),
          mvKeymap? (vs.getD 3 .nil) with
      | some id, some name, some kvs =>
        match objectToPublicKeyMap kvs with
        | .ok keys => .ok ⟨id, name, keys⟩
        | .error e => .error e
      | _, _, _ => fieldErr
  | _ =>
    .error (.generic "Attempted to deserialize device, but buffer was invalid")

/-- `Service.deserializeEnrolment` (note the wrong-version message names
"PushAuth", verbatim from the source). -/
def deserializeEnrolment (svc : ServiceM) (v : MVal) :
    Except SdkError EnrolmentM :=
  match v with
  | .arr vs =>
    if vs.length ≠ 11 then
      .error (.generic
        "Attempted to deserialize enrolment, but incorrect number of components")
    else if ¬mvIsStr (vs.getD 0 .nil) "CiphEnrl" then
      .error (.generic
        "Attempted to deserialize enrolment, but header not found")
    else if ¬mvIsStr (vs.getD 1 .nil) SERIALIZED_VERSION then
      .error (.generic "Attempted to deserialize PushAuth, but wrong version")
    else
      match mvStr? (vs.getD 2 .nil), mvStr? (vs.getD 3 .nil),
          mvStr? (vs.getD 4 .nil), mvStr? (vs.getD 5 .nil),
          mvStr? (vs.getD 6 .nil), mvStr? (vs.getD 7 .nil),
          mvStr? (vs.getD 8 .nil), mvStr? (vs.getD 9 .nil),
          mvKeymap? (vs.getD 10 .nil) with
      | some logId, some waveCodeUrl, some directEnrolUrl, some statusUrl,
          some validateUrl, some username, some confirmationUrl,
          some deviceId, some kvs =>
        match objectToPublicKeyMap kvs with
        | .ok publicKeys =>
          .ok ⟨svc, logId, waveCodeUrl, directEnrolUrl, statusUrl, validateUrl,
            username, publicKeys, deviceId, confirmationUrl⟩
        | .error e => .error e
      | _, _, _, _, _, _, _, _, _ => fieldErr
  | _ =>
    .error (.generic
      "Attempted to deserialize enrolment, but buffer was invalid")

/-- `Service.deserializePushAuth`. -/
def deserializePushAuth (svc : ServiceM) (v : MVal) :
    Except SdkError PushAuthM :=
  match v with
  | .arr vs =>
    if vs.length ≠ 10 then
      .error (.generic
        "Attempted to deserialize PushAuth, but incorrect number of components")
    else if ¬mvIsStr (vs.getD 0 .nil) "CiphUsrP" then
      .error (.generic
        "Attempted to deserialize PushAuth, but header not found")
    else if ¬mvIsStr (vs.getD 1 .nil) SERIALIZED_VERSION then
      .error (.generic "Attempted to deserialize PushAuth, but wrong version")
    else
      match mvStr? (vs.getD 2 .nil), mvBin? (vs.getD 3 .nil),
          mvNat? (vs.getD 4 .nil), mvStr? (vs.getD 5 .nil),
          mvPacked? (vs.getD 6 .nil), mvStr? (vs.getD 7 .nil),
          mvStr? (vs.getD 8 .nil), mvOptStr? (vs.getD 9 .nil) with
      | some logId, some authChallenge, some level, some username,
          some deviceVal, some statusUrl, some assertionUrl,
          some verifyAuthUrl =>
        match deserializeDevice deviceVal with
        | .ok device =>
          .ok ⟨svc, logId, authChallenge, level, username, device, statusUrl,
            assertionUrl, verifyAuthUrl⟩
        | .error e => .error e
      | _, _, _, _, _, _, _, _ => fieldErr
  | _ =>
    .error (.generic
      "Attempted to deserialize PushAuth, but buffer was invalid")

/-- `Service.deserializeWaveAuth`. -/
def deserializeWaveAuth (svc : ServiceM) (v : MVal) :
    Except SdkError WaveAuthM :=
  match v with
  | .arr vs =>
    if vs.length ≠ 11 then
      .error (.generic
        "Attempted to deserialize WaveAuth, but incorrect number of components")
    else if ¬mvIsStr (vs.getD 0 .nil) "CiphUsrW" then
      .error (.generic
        "Attempted to deserialize WaveAuth, but header not found")
    else if ¬mvIsStr (vs.getD 1 .nil) SERIALIZED_VERSION then
      .error (.generic "Attempted to deserialize WaveAuth, but wrong version")
    else
      match mvStr? (vs.getD 2 .nil), mvBin? (vs.getD 3 .nil),
          mvNat? (vs.getD 4 .nil), mvStr? (vs.getD 5 .nil),
          mvStr? (vs.getD 6 .nil), mvStr? (vs.getD 7 .nil),
          mvStr? (vs.getD 8 .nil), mvOptStr? (vs.getD 9 .nil),
          mvOptStr? (vs.getD 10 .nil) with
      | some logId, some authChallenge, some level, some initiatorUrl,
          some waveCodeUrl, some statusUrl, some assertionUrl,
          some appChallengeUrl, some verifyAuthUrl =>
        .ok ⟨svc, logId, authChallenge, level, initiatorUrl, waveCodeUrl,
          statusUrl, assertionUrl, appChallengeUrl, verifyAuthUrl⟩
      | _, _, _, _, _, _, _, _, _ => fieldErr
  | _ =>
    .error (.generic
      "Attempted to deserialize WaveAuth, but buffer was invalid")

/-! ### Equality methods -/

/-- `Service.equals`: id, base URL and exported private key bytes; the
session token is not compared. -/
def ServiceM.equals (a b : ServiceM) : Bool :=
  a.id == b.id && a.url == b.url && derExport a.keyId == derExport b.keyId

/-- `Device.equals`: id, name, and the JSON of the exported key map. -/
def DeviceM.equals (a b : DeviceM) : Bool :=
  a.id == b.id && a.name == b.name &&
    publicKeyMapToObject a.keys == publicKeyMapToObject b.keys

/-- `Enrolment.equals`. -/
def EnrolmentM.equals (a b : EnrolmentM) : Bool :=
  a.service.equals b.service && a.logId == b.logId &&
    a.waveCodeUrl == b.waveCodeUrl && a.directEnrolUrl == b.directEnrolUrl &&
    a.statusUrl == b.statusUrl && a.validateUrl == b.validateUrl &&
    a.username == b.username &&
    (publicKeyMapToObject a.publicKeys == publicKeyMapToObject b.publicKeys) &&
    a.deviceId == b.deviceId && a.confirmationUrl == b.confirmationUrl

/-- `PushAuth.equals`. -/
def PushAuthM.equals (a b : PushAuthM) : Bool :=
  a.service.equals b.service && a.logId == b.logId &&
    a.authChallenge == b.authChallenge && a.authLevel == b.authLevel &&
    a.username == b.username && a.device.equals b.device &&
    a.statusUrl == b.statusUrl && a.assertionUrl == b.assertionUrl &&
    a.verifyAuthUrl == b.verifyAuthUrl

/-- `WaveAuth.equals`. -/
def WaveAuthM.equals (a b : WaveAuthM) : Bool :=
  a.service.equals b.service && a.logId == b.logId &&
    a.authChallenge == b.authChallenge && a.authLevel == b.authLevel &&
    a.initiatorUrl == b.initiatorUrl && a.waveCodeUrl == b.waveCodeUrl &&
    a.statusUrl == b.statusUrl && a.assertionUrl == b.assertionUrl &&
    a.appChallengeUrl == b.appChallengeUrl &&
    a.verifyAuthUrl == b.verifyAuthUrl

/-! ## The claim layer: concrete sample data -/


instance {ε α : Type} [DecidableEq ε] [DecidableEq α] :
    DecidableEq (Except ε α)
  | .ok a, .ok b =>
    if h : a = b then isTrue (by rw [h]) else isFalse (by simp [h])
  | .ok _, .error _ => isFalse nofun
  | .error _, .ok _ => isFalse nofun
  | .error a, .error b =>
    if h : a = b then isTrue (by rw [h]) else isFalse (by simp [h])

def svcA : ServiceM := ⟨"svcA", "https://cs.example.com/", 1, some "tokA"⟩

def svcB : ServiceM := ⟨"svcB", "https://cs.example.com/", 2, none⟩

def demoKey : Bytes := List.range 32

def demoIv : Bytes := (List.range 16).map (· + 32)

def demoJson : Json := Json.obj [("a", Json.str "bbbb")]

def alwaysExpiredTransport : Nat → Option String → Except TransportError Nat :=
  fun _ _ => .error (.sessionExpired "session expired")

def okRefresh : Nat → Except TransportError String := fun _ => .ok "fresh"

def okTransport : Nat → Option String → Except TransportError Nat :=
  fun _ _ => .ok 7

/-- One per-level signature check of the `getUserDevices` loop. -/
def sigOk (svc : ServiceM) (username : String) (dj : DeviceJsonM)
    (ls : Nat × SBuf) : Bool :=
  match keyLookup dj.publicKeys ls.1 with
  | some k => verifySignature svc ls.2 username dj.deviceId k ls.1
  | none => false

/-- A device every per-level signature of which verifies. -/
def devAllOk (svc : ServiceM) (username : String) (dj : DeviceJsonM) : Bool :=
  dj.signatures.all (sigOk svc username dj)

/-- Whether scanning this device sets the `foundValidDevice` flag: the scan
stops at the first failing level, so the flag is set exactly when the first
listed signature verifies. -/
def devFirstOk (svc : ServiceM) (username : String) (dj : DeviceJsonM) : Bool :=
  match dj.signatures with
  | [] => false
  | ls :: _ => sigOk svc username dj ls

def demoDeviceKey1 : Nat := 11

def demoDeviceKey2 : Nat := 12

/-- A device whose level-1 signature verifies and whose level-2 signature is
garbage. -/
def mixedDevice : DeviceJsonM :=
  ⟨"dev1", "phone", [(1, demoDeviceKey1), (2, demoDeviceKey2)],
    [(1, calculateSignature svcA "u" "dev1" demoDeviceKey1 1),
     (2, SBuf.raw [0])]⟩

/-- The envelope produced by encrypting `demoJson` from `svcA` to `svcB`'s
public key with the demo key and IV. -/
def demoEnv : EnvelopeM :=
  ⟨"1a84f24c74ad727e7ea3dbee202122232425262728292a2b2c2d2e2f",
    SBuf.rsaEnc 2 (.raw demoKey),
    SBuf.rsaSign 1 (SBuf.rsaEnc 2 (.raw demoKey))⟩

/-- `demoEnv` with the single hex character at index 15 of `data` changed
from 'e' to 'f' (flipping the low bit of ciphertext byte 7). -/
def tamperedEnv : EnvelopeM :=
  ⟨"1a84f24c74ad727f7ea3dbee202122232425262728292a2b2c2d2e2f",
    SBuf.rsaEnc 2 (.raw demoKey),
    SBuf.rsaSign 1 (SBuf.rsaEnc 2 (.raw demoKey))⟩

/-- The device's payload acknowledgement: `setResponse` is false. -/
def respJson : Json := Json.obj [("setResponse", Json.bool false)]

/-- A payload request with a non-empty `set`. -/
def prA : PayloadRequestM := ⟨[], [("a", "b")]⟩

/-- A fully successful assertion from the device holding keypair 2,
asserted against `svcA` over the challenge `[1, 2, 3]`. -/
def dataA : AssertionData :=
  ⟨some "https://verify", "user", "true", 2,
    calculateSignature svcA "user" "dev" 2 1, "dev", 1,
    SBuf.rsaSign 2 (.raw [1, 2, 3]), "payload-url"⟩

/-- The envelope the device (keypair 2) posts back: `respJson` encrypted to
`svcA`'s public key. -/
def pprEnv : EnvelopeM :=
  ⟨"1a84e00b3add756f6cae97e0d0609ab241a6317bc4202122232425262728292a2b2c2d2e2f",
    SBuf.rsaEnc 1 (.raw demoKey),
    SBuf.rsaSign 2 (SBuf.rsaEnc 1 (.raw demoKey))⟩


/-! ## Characterization lemmas for the claim theorems -/


theorem scanDeviceSignatures_eq (svc : ServiceM) (username : String)
    (dj : DeviceJsonM) :
    ∀ (sigs : List (Nat × SBuf)) (found : Bool),
      (∀ ls ∈ sigs, (keyLookup dj.publicKeys ls.1).isSome = true) →
      scanDeviceSignatures svc username dj sigs found =
        .ok (sigs.all (sigOk svc username dj),
          found || (match sigs with
            | [] => false
            | ls :: _ => sigOk svc username dj ls))
  | [], found, _ => by simp [scanDeviceSignatures]
  | (l, s) :: rest, found, h => by
    have hk : (keyLookup dj.publicKeys l).isSome = true :=
      h (l, s) (List.mem_cons_self _ _)
    obtain ⟨k, hk⟩ := Option.isSome_iff_exists.mp hk
    rw [scanDeviceSignatures, hk]
    dsimp only
    by_cases hv : verifySignature svc s username dj.deviceId k l = true
    · rw [if_pos hv,
        scanDeviceSignatures_eq svc username dj rest true
          (fun ls hls => h ls (List.mem_cons_of_mem _ hls))]
      have hso : sigOk svc username dj (l, s) = true := by
        rw [sigOk, hk]
        exact hv
      simp [hso]
    · rw [if_neg hv]
      have hso : sigOk svc username dj (l, s) = false := by
        rw [sigOk, hk]
        exact Bool.not_eq_true _ ▸ hv
      simp [hso]

theorem getUserDevicesGo_eq (svc : ServiceM) (username : String) :
    ∀ (djs : List DeviceJsonM) (acc : List DeviceM) (found : Bool),
      (∀ dj ∈ djs, ∀ ls ∈ dj.signatures,
        (keyLookup dj.publicKeys ls.1).isSome = true) →
      getUserDevicesGo svc username djs acc found =
        .ok (acc ++ (djs.filter (devAllOk svc username)).map
          (fun dj => ⟨dj.deviceId, dj.friendlyName, dj.publicKeys⟩),
          found || djs.any (devFirstOk svc username))
  | [], acc, found, _ => by simp [getUserDevicesGo]
  | dj :: rest, acc, found, h => by
    rw [getUserDevicesGo,
      scanDeviceSignatures_eq svc username dj dj.signatures found
        (h dj (List.mem_cons_self _ _))]
    dsimp only
    rw [getUserDevicesGo_eq svc username rest _ _
      (fun d hd ls hls => h d (List.mem_cons_of_mem _ hd) ls hls)]
    have hfo : (match dj.signatures with
        | [] => false
        | ls :: _ => sigOk svc username dj ls) = devFirstOk svc username dj := by
      rw [devFirstOk]
    rw [hfo]
    by_cases ha : devAllOk svc username dj = true
    · rw [if_pos (by rw [devAllOk] at ha; exact ha)]
      simp [List.filter_cons, ha, Bool.or_assoc]
    · rw [if_neg (by rw [devAllOk] at ha; simp at ha; simp [ha])]
      have ha' : devAllOk svc username dj = false := by
        simpa using ha
      simp [List.filter_cons, ha', Bool.or_assoc]

theorem deserializeService_serializeService (s : ServiceM) (clientUrl : String) :
    deserializeService clientUrl (serializeService s) =
      .ok ⟨s.id, clientUrl, s.keyId, s.sessionId⟩ := by
  cases hs : s.sessionId with
  | none =>
    simp [serializeService, deserializeService, mvIsStr, mvStr?, mvBin?,
      mvOptStr?, optStrMVal, SERIALIZED_VERSION, derImport_derExport, hs]
  | some t =>
    simp [serializeService, deserializeService, mvIsStr, mvStr?, mvBin?,
      mvOptStr?, optStrMVal, SERIALIZED_VERSION, derImport_derExport, hs]

theorem deserializeDevice_serializeDevice (d : DeviceM) :
    deserializeDevice (serializeDevice d) = .ok d := by
  simp [serializeDevice, deserializeDevice, mvIsStr, mvStr?, mvKeymap?,
    objectToPublicKeyMap_publicKeyMapToObject]

theorem deserializeEnrolment_serializeEnrolment (e : EnrolmentM)
    (svc : ServiceM) :
    deserializeEnrolment svc (serializeEnrolment e) =
      .ok ⟨svc, e.logId, e.waveCodeUrl, e.directEnrolUrl, e.statusUrl,
        e.validateUrl, e.username, e.publicKeys, e.deviceId,
        e.confirmationUrl⟩ := by
  simp [serializeEnrolment, deserializeEnrolment, mvIsStr, mvStr?, mvKeymap?,
    SERIALIZED_VERSION, objectToPublicKeyMap_publicKeyMapToObject]

theorem deserializePushAuth_serializePushAuth (p : PushAuthM)
    (svc : ServiceM) :
    deserializePushAuth svc (serializePushAuth p) =
      .ok ⟨svc, p.logId, p.authChallenge, p.authLevel, p.username, p.device,
        p.statusUrl, p.assertionUrl, p.verifyAuthUrl⟩ := by
  cases hv : p.verifyAuthUrl with
  | none =>
    simp [serializePushAuth, deserializePushAuth, mvIsStr, mvStr?, mvBin?,
      mvNat?, mvPacked?, mvOptStr?, optStrMVal, SERIALIZED_VERSION,
      deserializeDevice_serializeDevice, hv]
  | some t =>
    simp [serializePushAuth, deserializePushAuth, mvIsStr, mvStr?, mvBin?,
      mvNat?, mvPacked?, mvOptStr?, optStrMVal, SERIALIZED_VERSION,
      deserializeDevice_serializeDevice, hv]

theorem deserializeWaveAuth_serializeWaveAuth (w : WaveAuthM)
    (svc : ServiceM) :
    deserializeWaveAuth svc (serializeWaveAuth w) =
      .ok ⟨svc, w.logId, w.authChallenge, w.authLevel, w.initiatorUrl,
        w.waveCodeUrl, w.statusUrl, w.assertionUrl, w.appChallengeUrl,
        w.verifyAuthUrl⟩ := by
  cases ha : w.appChallengeUrl with
  | none =>
    cases hv : w.verifyAuthUrl with
    | none => simp [serializeWaveAuth, deserializeWaveAuth, mvIsStr, mvStr?,
        mvBin?, mvNat?, mvOptStr?, optStrMVal, SERIALIZED_VERSION, ha, hv]
    | some t => simp [serializeWaveAuth, deserializeWaveAuth, mvIsStr, mvStr?,
        mvBin?, mvNat?, mvOptStr?, optStrMVal, SERIALIZED_VERSION, ha, hv]
  | some t0 =>
    cases hv : w.verifyAuthUrl with
    | none => simp [serializeWaveAuth, deserializeWaveAuth, mvIsStr, mvStr?,
        mvBin?, mvNat?, mvOptStr?, optStrMVal, SERIALIZED_VERSION, ha, hv]
    | some t => simp [serializeWaveAuth, deserializeWaveAuth, mvIsStr, mvStr?,
        mvBin?, mvNat?, mvOptStr?, optStrMVal, SERIALIZED_VERSION, ha, hv]

theorem ServiceM.equals_refl_like (s : ServiceM) (sid : Option String) :
    ServiceM.equals s ⟨s.id, s.url, s.keyId, sid⟩ = true := by
  rw [ServiceM.equals]
  simp

theorem ServiceM.equals_self (s : ServiceM) : ServiceM.equals s s = true := by
  rw [ServiceM.equals]
  simp


/-! ## The claims -/


/-- **C1** (corrected): `verifySignature` checks the signature against the
service's *own* keypair (`this.key.verify`), not against the supplied device
public key `k`: it returns true exactly when the signature is the service
key's signature over the recomputed `calculateSignatureData` hash, and in
particular `calculateSignature` round-trips. -/
theorem c1_verifySignature_uses_service_key (s : ServiceM) (sig : SBuf)
    (u d : String) (k l : Nat) :
    (verifySignature s sig u d k l = true ↔
      sig = SBuf.rsaSign s.keyId (calculateSignatureData s u d k l)) ∧
    verifySignature s (calculateSignature s u d k l) u d k l = true := by
  constructor
  · rw [verifySignature, rsaVerify, beq_iff_eq]
  · rw [verifySignature, calculateSignature, ServiceM.sign, rsaVerify]
    exact beq_self_eq_true _

/-- **C1** counterexample to the claim as written: a signature that is a
valid RSA signature over the recomputed hash under the *supplied* public key
(keypair 2) is rejected by `verifySignature` of a service holding keypair 1
(and conversely the service-key signature is accepted even though it is not
a signature under the supplied key). -/
theorem c1_counterexample :
    rsaVerify 2 (calculateSignatureData svcA "u" "d" 2 1)
      (SBuf.rsaSign 2 (calculateSignatureData svcA "u" "d" 2 1)) = true ∧
    verifySignature svcA
      (SBuf.rsaSign 2 (calculateSignatureData svcA "u" "d" 2 1))
      "u" "d" 2 1 = false := by
  decide

/-- **C2** (corrected): when the assertion reports `authenticated == "true"`,
the key-binding signature verifies, the challenge solution verifies, and a
requested payload exchange fails (non-empty `set` with a falsy
acknowledgement), the final accept notice posted to the server is
`authenticated AND payloadValid` = false — but the returned outcome is
`Success`, not the claimed `Failure`: the result is computed from
`authenticated` alone and ignores `payloadValid`. -/
theorem c2_payload_failure_outcome (svc : ServiceM) (payloadSize : Nat)
    (authChallenge : Bytes) (data : AssertionData) (pr : PayloadRequestM)
    (symKey iv : Bytes) (ppr : EnvelopeM) (prj : Json) (u : String)
    (hurl : data.verifyAuthenticationURL = some u)
    (hauth : data.authenticated = "true")
    (hsig : verifySignature svc data.keySignature data.username data.deviceId
      data.publicKey data.publicKeyLevel = true)
    (hsol : data.authenticationSolution =
      SBuf.rsaSign data.publicKey (.raw authChallenge))
    (hset : pr.set.isEmpty = false)
    (henc : (encryptPayloadData svc data.publicKey (payloadRequestJson pr)
      symKey iv payloadSize).isOk = true)
    (hdec : decryptPayloadJson svc data.publicKey ppr = .ok prj)
    (hfalsy : jsTruthy (prj.lookup "setResponse") = false) :
    authenticateInternal svc payloadSize authChallenge data (some pr)
        symKey iv ppr =
      .ok ([⟨false, none⟩],
        ⟨.Success, data.username,
          ⟨(match prj.lookup "getResponse" with
            | some (.obj kvs) => kvs
            | _ => []), prj.lookup "setResponse"⟩⟩) := by
  obtain ⟨env, henv⟩ : ∃ env, encryptPayloadData svc data.publicKey
      (payloadRequestJson pr) symKey iv payloadSize = .ok env := by
    cases h : encryptPayloadData svc data.publicKey (payloadRequestJson pr)
        symKey iv payloadSize with
    | ok env => exact ⟨env, rfl⟩
    | error e => rw [h] at henc; exact absurd henc (by simp [Except.isOk,
        Except.toBool])
  rw [authenticateInternal]
  dsimp only
  rw [if_neg (by rw [hauth]; decide), if_neg (by rw [hauth]; decide),
    if_neg (by rw [hauth]; simp), if_pos hsig]
  have hver : rsaVerify data.publicKey (.raw authChallenge)
      data.authenticationSolution = true := by
    rw [hsol, rsaVerify]
    exact beq_self_eq_true _
  rw [hver, henv, hdec, hurl, hset]
  simp only [show (if (false = true) then some (Json.bool false)
      else prj.lookup "setResponse") = prj.lookup "setResponse"
    from if_neg (by decide)]
  rw [hfalsy]
  dsimp only [acceptNotice]
  rfl

set_option maxRecDepth 1000000 in
/-- **C2** witness: the concrete failed-payload authentication posts the
notice `(verified := false)` yet returns `Success`. -/
theorem c2_witness :
    authenticateInternal svcA 4000 [1, 2, 3] dataA (some prA) demoKey demoIv
        pprEnv =
      .ok ([⟨false, none⟩],
        ⟨.Success, "user", ⟨[], some (.bool false)⟩⟩) := by
  have h := c2_payload_failure_outcome svcA 4000 [1, 2, 3] dataA prA demoKey
    demoIv pprEnv respJson "https://verify" rfl rfl (by decide) rfl rfl
    (by decide) (by decide) (by decide)
  exact h.trans (by decide)

set_option maxRecDepth 1000000 in
/-- **C2** counterexample to the claim as written: in the concrete
failed-payload scenario (`authenticated == "true"`, valid key signature and
challenge solution, non-empty requested `set`, falsy acknowledgement) the
accept notice carries `verified := false` but the returned outcome is
`Success`, not the claimed `Failure`. -/
theorem c2_counterexample :
    authenticateInternal svcA 4000 [1, 2, 3] dataA (some prA) demoKey demoIv
        pprEnv =
      .ok ([⟨false, none⟩], ⟨.Success, "user", ⟨[], some (.bool false)⟩⟩) ∧
    AuthOutcome.Success ≠ AuthOutcome.Failure := by
  exact ⟨by decide, by decide⟩


/-- **C3** (confirmed): the four access helpers return a first-attempt
success as-is after one attempt; on a first-attempt session-expired failure
they refresh and retry exactly once, returning the second attempt's success;
a non-session-expired error propagates immediately; and when both attempts
fail with session-expired the call resolves to `undefined` (`none`) after
exactly two transport attempts. -/
theorem c3_access_helper_retry {α : Type}
    (transport : Nat → Option String → Except TransportError α)
    (refresh : Nat → Except TransportError String) (sessionId : Option String) :
    (∀ v, transport 0 (tokenArg sessionId) = .ok v →
      postUrlM transport refresh sessionId = .ok (some v, 1) ∧
      postUriM transport refresh sessionId = .ok (some v, 1) ∧
      getUrlM transport refresh sessionId = .ok (some v, 1) ∧
      getUriM transport refresh sessionId = .ok (some v, 1)) ∧
    (∀ m ns v, transport 0 (tokenArg sessionId) = .error (.sessionExpired m) →
      refresh 0 = .ok ns → transport 1 (tokenArg (some ns)) = .ok v →
      postUrlM transport refresh sessionId = .ok (some v, 2) ∧
      postUriM transport refresh sessionId = .ok (some v, 2) ∧
      getUrlM transport refresh sessionId = .ok (some v, 2) ∧
      getUriM transport refresh sessionId = .ok (some v, 2)) ∧
    (∀ e, transport 0 (tokenArg sessionId) = .error e →
      isSessionExpiredErr e = false →
      postUrlM transport refresh sessionId = .error e ∧
      postUriM transport refresh sessionId = .error e ∧
      getUrlM transport refresh sessionId = .error e ∧
      getUriM transport refresh sessionId = .error e) ∧
    (∀ m ns m2 s2, transport 0 (tokenArg sessionId) = .error (.sessionExpired m) →
      refresh 0 = .ok ns →
      transport 1 (tokenArg (some ns)) = .error (.sessionExpired m2) →
      refresh 1 = .ok s2 →
      postUrlM transport refresh sessionId = .ok (none, 2) ∧
      postUriM transport refresh sessionId = .ok (none, 2) ∧
      getUrlM transport refresh sessionId = .ok (none, 2) ∧
      getUriM transport refresh sessionId = .ok (none, 2)) := by
  refine ⟨fun v h => ?_, fun m ns v h0 hr h1 => ?_, fun e h0 hnse => ?_,
    fun m ns m2 s2 h0 hr h1 hr2 => ?_⟩
  · have : accessHelper transport refresh sessionId = .ok (some v, 1) := by
      rw [accessHelper, h]
    exact ⟨this, this, this, this⟩
  · have : accessHelper transport refresh sessionId = .ok (some v, 2) := by
      rw [accessHelper, h0]
      dsimp only [isSessionExpiredErr]
      rw [if_pos rfl, hr]
      dsimp only
      rw [h1]
    exact ⟨this, this, this, this⟩
  · have : accessHelper transport refresh sessionId = .error e := by
      rw [accessHelper, h0]
      dsimp only
      rw [hnse]
      simp
    exact ⟨this, this, this, this⟩
  · have : accessHelper transport refresh sessionId = .ok (none, 2) := by
      rw [accessHelper, h0]
      dsimp only [isSessionExpiredErr]
      rw [if_pos rfl, hr]
      dsimp only
      rw [h1]
      dsimp only [isSessionExpiredErr]
      rw [if_pos rfl, hr2]
    exact ⟨this, this, this, this⟩

/-- **C3** witness: a transport that always raises session-expired resolves
to `none` after exactly two attempts, and a transport that succeeds at once
returns after one attempt. -/
theorem c3_witness :
    postUrlM alwaysExpiredTransport okRefresh (some "tok") = .ok (none, 2) ∧
    getUriM okTransport okRefresh (some "tok") = .ok (some 7, 1) := by
  refine ⟨?_, ?_⟩
  · exact ((c3_access_helper_retry alwaysExpiredTransport okRefresh
      (some "tok")).2.2.2 "session expired" "fresh" "session expired" "fresh"
      rfl rfl rfl rfl).1
  · exact ((c3_access_helper_retry okTransport okRefresh
      (some "tok")).1 7 rfl).2.2.2

/-- **C4** (corrected): over a server response whose signature levels all
have matching public keys, `getUserDevices` returns exactly the devices
*all* of whose per-level signatures verify (a device with any failing level
is dropped whole), an empty response yields an empty list, and the
"Mismatching key signatures" error occurs exactly when the response is
non-empty and no device's *first* listed signature verifies — the
`foundValidDevice` flag is set per verified level before the failing one,
so a partially-valid device suppresses the error even though it is
excluded from the result. -/
theorem c4_getUserDevices_characterization (svc : ServiceM) (username : String)
    (djs : List DeviceJsonM)
    (h : ∀ dj ∈ djs, ∀ ls ∈ dj.signatures,
      (keyLookup dj.publicKeys ls.1).isSome = true) :
    getUserDevices svc username djs =
      if djs.isEmpty || djs.any (devFirstOk svc username) then
        .ok ((djs.filter (devAllOk svc username)).map
          (fun dj => ⟨dj.deviceId, dj.friendlyName, dj.publicKeys⟩))
      else .error (.generic "Mismatching key signatures") := by
  rw [getUserDevices, getUserDevicesGo_eq svc username djs [] djs.isEmpty h]
  dsimp only
  by_cases hc : (djs.isEmpty || djs.any (devFirstOk svc username)) = true
  · rw [if_pos hc, if_pos hc, List.nil_append]
  · rw [if_neg hc, if_neg hc]

/-- **C4** counterexample to the claim as written: a non-empty response in
which *no* device passes verification (the only device has an invalid
level-2 signature, so it is excluded) nevertheless does **not** throw
"Mismatching key signatures": it returns an empty device list, because the
valid level-1 signature already set the `foundValidDevice` flag. -/
theorem c4_counterexample :
    getUserDevices svcA "u" [mixedDevice] = .ok [] ∧
    [mixedDevice].isEmpty = false := by
  refine ⟨by decide, rfl⟩

/-- **C4** witness: a fully valid device is returned, and with it present the
partially-valid device is still dropped whole. -/
theorem c4_witness :
    getUserDevices svcA "u"
      [⟨"dev0", "tab", [(1, demoDeviceKey2)],
        [(1, calculateSignature svcA "u" "dev0" demoDeviceKey2 1)]⟩,
       mixedDevice] =
      .ok [⟨"dev0", "tab", [(1, demoDeviceKey2)]⟩] := by
  rw [c4_getUserDevices_characterization svcA "u" _ (by decide)]
  decide



/-- **C5** (confirmed): with a well-formed fresh key and IV,
`encryptPayloadData` fails with `PayloadDataLengthExceededError` exactly
when twice the byte length of ciphertext‖IV reaches the negotiated payload
size, returns the hex envelope otherwise, and the negotiated size defaults
to 4000 when the server does not report one. -/
theorem c5_payload_size_ceiling (s : ServiceM) (recipientPublicKey : Nat)
    (json : Json) (symKey iv : Bytes)
    (hk : symKey.length = 32) (hiv : iv.length = 16) :
    (∀ ps, (aesCfbEncrypt symKey iv (utf8Enc (Json.encode json)) ++ iv).length * 2
        ≥ ps →
      ∃ m, encryptPayloadData s recipientPublicKey json symKey iv ps =
        .error (.payloadDataLengthExceeded m)) ∧
    (∀ ps, (aesCfbEncrypt symKey iv (utf8Enc (Json.encode json)) ++ iv).length * 2
        < ps →
      encryptPayloadData s recipientPublicKey json symKey iv ps =
        .ok ⟨hexEncode (aesCfbEncrypt symKey iv (utf8Enc (Json.encode json)) ++ iv),
          SBuf.rsaEnc recipientPublicKey (.raw symKey),
          SBuf.rsaSign s.keyId (SBuf.rsaEnc recipientPublicKey (.raw symKey))⟩) ∧
    negotiatedPayloadSize none = 4000 := by
  refine ⟨fun ps hge => ?_, fun ps hlt => ?_, rfl⟩
  · rw [encryptPayloadData, if_pos ⟨hk, hiv⟩, if_pos hge]
    exact ⟨_, rfl⟩
  · rw [encryptPayloadData, if_pos ⟨hk, hiv⟩, if_neg (by omega)]

/-- **C5** witness: the 28-byte demo ciphertext‖IV (56 hex characters) is
rejected at a negotiated size of 56 and accepted at the default 4000. -/
theorem c5_witness :
    (∃ m, encryptPayloadData svcA 2 demoJson demoKey demoIv 56 =
      .error (.payloadDataLengthExceeded m)) ∧
    encryptPayloadData svcA 2 demoJson demoKey demoIv 4000 =
      .ok ⟨hexEncode (aesCfbEncrypt demoKey demoIv
          (utf8Enc (Json.encode demoJson)) ++ demoIv),
        SBuf.rsaEnc 2 (.raw demoKey),
        SBuf.rsaSign 1 (SBuf.rsaEnc 2 (.raw demoKey))⟩ := by
  refine ⟨(c5_payload_size_ceiling svcA 2 demoJson demoKey demoIv
      (by decide) (by decide)).1 56 (by decide),
    (c5_payload_size_ceiling svcA 2 demoJson demoKey demoIv
      (by decide) (by decide)).2.1 4000 (by decide)⟩

/-- **C6** (corrected): the envelope round-trips — decryption of an
untampered envelope yields the original payload — and any change to the
`key` field is caught by the signature check; but the claim's assertion
that a single hex-character change of the `data` field must make
`decryptPayloadJson` fail is refuted (see the counterexample): the
signature covers only the encrypted key, so a tampered ciphertext can
still decrypt to valid JSON. -/
theorem c6_envelope_roundtrip_and_key_binding
    (sA sB : ServiceM) (json : Json) (symKey iv : Bytes) (payloadSize : Nat)
    (env : EnvelopeM) (hkwf : BytesWF symKey) (hivwf : BytesWF iv)
    (hok : encryptPayloadData sA sB.keyId json symKey iv payloadSize =
      .ok env) :
    decryptPayloadJson sB sA.keyId env = .ok json ∧
    ∀ k', k' ≠ env.key →
      decryptPayloadJson sB sA.keyId ⟨env.data, k', env.signature⟩ =
        .error (.generic "Failed payload signature verification") := by
  refine ⟨decryptPayloadJson_encryptPayloadData sA sB json symKey iv
    payloadSize env hkwf hivwf hok, ?_⟩
  intro k' hne
  have hsig : env.signature = SBuf.rsaSign sA.keyId env.key := by
    rw [encryptPayloadData] at hok
    by_cases hlen : symKey.length = 32 ∧ iv.length = 16
    · rw [if_pos hlen] at hok
      split at hok
      · exact absurd hok (by simp)
      · have henv := Except.ok.inj hok
        rw [← henv]
    · rw [if_neg hlen] at hok
      exact absurd hok (by simp)
  have hv : rsaVerify sA.keyId k' env.signature = false := by
    rw [hsig, rsaVerify]
    simp only [beq_eq_false_iff_ne, ne_eq, SBuf.rsaSign.injEq, not_and]
    intro _ h2
    exact hne h2.symm
  rw [decryptPayloadJson]
  dsimp only
  rw [if_neg (by simp [hv])]

set_option maxRecDepth 100000 in
/-- **C6** witness: the demo envelope decrypts back to `demoJson`, and
replacing its key field with a different blob fails the signature check. -/
theorem c6_witness :
    decryptPayloadJson svcB svcA.keyId demoEnv = .ok demoJson ∧
    decryptPayloadJson svcB svcA.keyId
        ⟨demoEnv.data, SBuf.raw [], demoEnv.signature⟩ =
      .error (.generic "Failed payload signature verification") := by
  have h := c6_envelope_roundtrip_and_key_binding svcA svcB demoJson demoKey
    demoIv 4000 demoEnv (by decide) (by decide) (by decide)
  exact ⟨h.1, h.2 (SBuf.raw []) (by decide)⟩

set_option maxRecDepth 100000 in
/-- **C6** counterexample to the claim as written: `tamperedEnv` differs from
the honestly produced `demoEnv` in exactly one hex character of the `data`
field, yet `decryptPayloadJson` does not fail — it returns the valid (but
different) JSON value obtained by flipping one plaintext bit inside the
CFB-encrypted string. -/
theorem c6_counterexample :
    encryptPayloadData svcA svcB.keyId demoJson demoKey demoIv 4000 =
      .ok demoEnv ∧
    tamperedEnv.key = demoEnv.key ∧
    tamperedEnv.signature = demoEnv.signature ∧
    tamperedEnv.data.length = demoEnv.data.length ∧
    ((tamperedEnv.data.data.zip demoEnv.data.data).countP
      fun p => p.1 != p.2) = 1 ∧
    decryptPayloadJson svcB svcA.keyId tamperedEnv =
      .ok (Json.obj [("a", Json.str "bcbb")]) ∧
    Json.obj [("a", Json.str "bcbb")] ≠ demoJson := by
  refine ⟨by decide, rfl, rfl, by decide, by decide, by decide, by decide⟩



/-- **C7** (corrected): a signature round-trips through verification, and an
*effective* change of exactly one bound input flips the verification to
false — where "effective" for the server URL and the username means a change
of the case-folded value, since both are lowercased before hashing (a
casing-only change does not flip the result, refuting the claim as
written), and the service id, device id, public key and level flip on any
change. -/
theorem c7_signature_binds_inputs (s : ServiceM) (u d : String) (k l : Nat) :
    verifySignature s (calculateSignature s u d k l) u d k l = true ∧
    (∀ url2 sid2, strToLower url2 ≠ strToLower s.url →
      verifySignature ⟨s.id, url2, s.keyId, sid2⟩
        (calculateSignature s u d k l) u d k l = false) ∧
    (∀ id2 sid2, id2 ≠ s.id →
      verifySignature ⟨id2, s.url, s.keyId, sid2⟩
        (calculateSignature s u d k l) u d k l = false) ∧
    (∀ u2, strToLower u2 ≠ strToLower u →
      verifySignature s (calculateSignature s u d k l) u2 d k l = false) ∧
    (∀ d2, d2 ≠ d →
      verifySignature s (calculateSignature s u d k l) u d2 k l = false) ∧
    (∀ k2, k2 ≠ k →
      verifySignature s (calculateSignature s u d k l) u d k2 l = false) ∧
    (∀ l2, l2 ≠ l →
      verifySignature s (calculateSignature s u d k l) u d k l2 = false) := by
  refine ⟨?_, ?_, ?_, ?_, ?_, ?_, ?_⟩
  · rw [verifySignature, calculateSignature, ServiceM.sign, rsaVerify]
    exact beq_self_eq_true _
  · intro url2 sid2 hne
    rw [verifySignature, calculateSignature, ServiceM.sign, rsaVerify,
      beq_eq_false_iff_ne]
    intro hc
    rw [SBuf.rsaSign.injEq] at hc
    rw [calculateSignatureData, calculateSignatureData, SBuf.sha256s.injEq]
      at hc
    have hd := congrArg String.data hc.2
    simp only [String.data_append, List.append_assoc] at hd
    exact hne (congrArg String.mk (List.append_cancel_right hd)).symm
  · intro id2 sid2 hne
    rw [verifySignature, calculateSignature, ServiceM.sign, rsaVerify,
      beq_eq_false_iff_ne]
    intro hc
    rw [SBuf.rsaSign.injEq] at hc
    rw [calculateSignatureData, calculateSignatureData, SBuf.sha256s.injEq]
      at hc
    have hd := congrArg String.data hc.2
    simp only [String.data_append, List.append_assoc] at hd
    have hd2 := List.append_cancel_left hd
    exact hne (congrArg String.mk (List.append_cancel_right hd2)).symm
  · intro u2 hne
    rw [verifySignature, calculateSignature, ServiceM.sign, rsaVerify,
      beq_eq_false_iff_ne]
    intro hc
    rw [SBuf.rsaSign.injEq] at hc
    rw [calculateSignatureData, calculateSignatureData, SBuf.sha256s.injEq]
      at hc
    have hd := congrArg String.data hc.2
    simp only [String.data_append, List.append_assoc] at hd
    have hd2 := List.append_cancel_left (List.append_cancel_left hd)
    exact hne (congrArg String.mk (List.append_cancel_right hd2)).symm
  · intro d2 hne
    rw [verifySignature, calculateSignature, ServiceM.sign, rsaVerify,
      beq_eq_false_iff_ne]
    intro hc
    rw [SBuf.rsaSign.injEq] at hc
    rw [calculateSignatureData, calculateSignatureData, SBuf.sha256s.injEq]
      at hc
    have hd := congrArg String.data hc.2
    simp only [String.data_append, List.append_assoc] at hd
    have hd2 := List.append_cancel_left (List.append_cancel_left
      (List.append_cancel_left hd))
    exact hne (congrArg String.mk (List.append_cancel_right hd2)).symm
  · intro k2 hne
    rw [verifySignature, calculateSignature, ServiceM.sign, rsaVerify,
      beq_eq_false_iff_ne]
    intro hc
    rw [SBuf.rsaSign.injEq] at hc
    rw [calculateSignatureData, calculateSignatureData, SBuf.sha256s.injEq]
      at hc
    have hd := congrArg String.data hc.2
    simp only [String.data_append, List.append_assoc] at hd
    have hd2 := List.append_cancel_left (List.append_cancel_left
      (List.append_cancel_left (List.append_cancel_left hd)))
    have hd3 := List.append_cancel_right hd2
    exact hne (pemExport_injective (congrArg String.mk hd3)).symm
  · intro l2 hne
    rw [verifySignature, calculateSignature, ServiceM.sign, rsaVerify,
      beq_eq_false_iff_ne]
    intro hc
    rw [SBuf.rsaSign.injEq] at hc
    rw [calculateSignatureData, calculateSignatureData, SBuf.sha256s.injEq]
      at hc
    have hd := congrArg String.data hc.2
    simp only [String.data_append, List.append_assoc] at hd
    have hd2 := List.append_cancel_left (List.append_cancel_left
      (List.append_cancel_left (List.append_cancel_left
        (List.append_cancel_left (List.append_cancel_left hd)))))
    exact hne (decRepr_injective (congrArg String.mk hd2)).symm

/-- **C7** counterexample to the claim as written: changing the username from
"alice" to "ALICE" between signing and verifying is a change of a bound
input, yet verification still returns true, because the username is
case-folded before hashing. -/
theorem c7_counterexample :
    verifySignature svcA (calculateSignature svcA "alice" "dev" 7 1)
      "ALICE" "dev" 7 1 = true ∧
    "ALICE" ≠ "alice" := by
  exact ⟨by decide, by decide⟩

/-- **C7** witness: the demo signature verifies, and changing the device id,
the public key, the level, or the case-folded username each flip it to
false. -/
theorem c7_witness :
    verifySignature svcA (calculateSignature svcA "alice" "dev" 7 1)
      "alice" "dev" 7 1 = true ∧
    verifySignature svcA (calculateSignature svcA "alice" "dev" 7 1)
      "bob" "dev" 7 1 = false ∧
    verifySignature svcA (calculateSignature svcA "alice" "dev" 7 1)
      "alice" "dev2" 7 1 = false ∧
    verifySignature svcA (calculateSignature svcA "alice" "dev" 7 1)
      "alice" "dev" 8 1 = false ∧
    verifySignature svcA (calculateSignature svcA "alice" "dev" 7 1)
      "alice" "dev" 7 2 = false := by
  have h := c7_signature_binds_inputs svcA "alice" "dev" 7 1
  exact ⟨h.1, h.2.2.2.1 "bob" (by decide), h.2.2.2.2.1 "dev2" (by decide),
    h.2.2.2.2.2.1 8 (by decide), h.2.2.2.2.2.2 2 (by decide)⟩



/-- **C8** (confirmed): each of the five entities deserializes from its own
serialization to an `equals`-equal value — `Service.equals` comparing id,
base URL and exported private key bytes while ignoring the session token
(here the deserialized Service inherits the deserializing client's URL and
the surrounding Service instance respectively). -/
theorem c8_serialization_roundtrips (s : ServiceM) (d : DeviceM)
    (e : EnrolmentM) (p : PushAuthM) (w : WaveAuthM) :
    (∃ s2, deserializeService s.url (serializeService s) = .ok s2 ∧
      ServiceM.equals s s2 = true) ∧
    (∃ d2, deserializeDevice (serializeDevice d) = .ok d2 ∧
      DeviceM.equals d d2 = true) ∧
    (∃ e2, deserializeEnrolment e.service (serializeEnrolment e) = .ok e2 ∧
      EnrolmentM.equals e e2 = true) ∧
    (∃ p2, deserializePushAuth p.service (serializePushAuth p) = .ok p2 ∧
      PushAuthM.equals p p2 = true) ∧
    (∃ w2, deserializeWaveAuth w.service (serializeWaveAuth w) = .ok w2 ∧
      WaveAuthM.equals w w2 = true) := by
  refine ⟨⟨⟨s.id, s.url, s.keyId, s.sessionId⟩,
      deserializeService_serializeService s s.url, ?_⟩,
    ⟨d, deserializeDevice_serializeDevice d, ?_⟩,
    ⟨_, deserializeEnrolment_serializeEnrolment e e.service, ?_⟩,
    ⟨_, deserializePushAuth_serializePushAuth p p.service, ?_⟩,
    ⟨_, deserializeWaveAuth_serializeWaveAuth w w.service, ?_⟩⟩
  · exact ServiceM.equals_refl_like s s.sessionId
  · rw [DeviceM.equals]; simp
  · rw [EnrolmentM.equals]
    simp [ServiceM.equals_self]
  · rw [PushAuthM.equals]
    simp [ServiceM.equals_self, DeviceM.equals]
  · rw [WaveAuthM.equals]
    simp [ServiceM.equals_self]



/-- **C9** (corrected): every deserializer rejects a non-array buffer, a wrong
arity, a wrong header and (where versioned) a wrong version with a distinct
descriptive error — but two of the messages are misdescriptive, refuting the
claim that the error always names the entity and the mismatch kind:
`deserializeEnrolment` reports a wrong version as "Attempted to deserialize
PushAuth, but wrong version", and `deserializeService` reports a wrong
version as "header not found". -/
theorem c9_deserializer_validation (svc : ServiceM) (clientUrl : String)
    (v : MVal) (vs : List MVal) :
    ((∀ ws, v ≠ .arr ws) →
      deserializeService clientUrl v = .error (.generic
        "Attempted to deserialize service, but buffer was invalid") ∧
      deserializeDevice v = .error (.generic
        "Attempted to deserialize device, but buffer was invalid") ∧
      deserializeEnrolment svc v = .error (.generic
        "Attempted to deserialize enrolment, but buffer was invalid") ∧
      deserializePushAuth svc v = .error (.generic
        "Attempted to deserialize PushAuth, but buffer was invalid") ∧
      deserializeWaveAuth svc v = .error (.generic
        "Attempted to deserialize WaveAuth, but buffer was invalid")) ∧
    (vs.length = 0 →
      deserializeService clientUrl (.arr vs) = .error (.generic
        "Attempted to deserialize service, but no components")) ∧
    (vs.length ≠ 0 → mvIsStr (vs.getD 0 .nil) "CiphSrvc" = false →
      deserializeService clientUrl (.arr vs) = .error (.generic
        "Attempted to deserialize service, but header not found")) ∧
    (vs.length = 6 → mvIsStr (vs.getD 0 .nil) "CiphSrvc" = true →
      mvIsStr (vs.getD 1 .nil) SERIALIZED_VERSION = false →
      deserializeService clientUrl (.arr vs) = .error (.generic
        "Attempted to deserialize service, but header not found")) ∧
    (vs.length ≠ 0 → vs.length ≠ 5 → vs.length ≠ 6 →
      mvIsStr (vs.getD 0 .nil) "CiphSrvc" = true →
      deserializeService clientUrl (.arr vs) = .error (.generic
        "Attempted to deserialize service, but incorrect number of components")) ∧
    (vs.length ≠ 4 →
      deserializeDevice (.arr vs) = .error (.generic
        "Attempted to deserialize device, but incorrect number of components")) ∧
    (vs.length = 4 → mvIsStr (vs.getD 0 .nil) "CiphDvce" = false →
      deserializeDevice (.arr vs) = .error (.generic
        "Attempted to deserialize device, but header not found")) ∧
    (vs.length ≠ 11 →
      deserializeEnrolment svc (.arr vs) = .error (.generic
        "Attempted to deserialize enrolment, but incorrect number of components")) ∧
    (vs.length = 11 → mvIsStr (vs.getD 0 .nil) "CiphEnrl" = false →
      deserializeEnrolment svc (.arr vs) = .error (.generic
        "Attempted to deserialize enrolment, but header not found")) ∧
    (vs.length = 11 → mvIsStr (vs.getD 0 .nil) "CiphEnrl" = true →
      mvIsStr (vs.getD 1 .nil) SERIALIZED_VERSION = false →
      deserializeEnrolment svc (.arr vs) = .error (.generic
        "Attempted to deserialize PushAuth, but wrong version")) ∧
    (vs.length ≠ 10 →
      deserializePushAuth svc (.arr vs) = .error (.generic
        "Attempted to deserialize PushAuth, but incorrect number of components")) ∧
    (vs.length = 10 → mvIsStr (vs.getD 0 .nil) "CiphUsrP" = false →
      deserializePushAuth svc (.arr vs) = .error (.generic
        "Attempted to deserialize PushAuth, but header not found")) ∧
    (vs.length = 10 → mvIsStr (vs.getD 0 .nil) "CiphUsrP" = true →
      mvIsStr (vs.getD 1 .nil) SERIALIZED_VERSION = false →
      deserializePushAuth svc (.arr vs) = .error (.generic
        "Attempted to deserialize PushAuth, but wrong version")) ∧
    (vs.length ≠ 11 →
      deserializeWaveAuth svc (.arr vs) = .error (.generic
        "Attempted to deserialize WaveAuth, but incorrect number of components")) ∧
    (vs.length = 11 → mvIsStr (vs.getD 0 .nil) "CiphUsrW" = false →
      deserializeWaveAuth svc (.arr vs) = .error (.generic
        "Attempted to deserialize WaveAuth, but header not found")) ∧
    (vs.length = 11 → mvIsStr (vs.getD 0 .nil) "CiphUsrW" = true →
      mvIsStr (vs.getD 1 .nil) SERIALIZED_VERSION = false →
      deserializeWaveAuth svc (.arr vs) = .error (.generic
        "Attempted to deserialize WaveAuth, but wrong version")) := by
  refine ⟨fun hna => ?_, fun h0 => ?_, fun h0 hh => ?_, fun h6 hh hv => ?_,
    fun h0 h5 h6 hh => ?_, fun h4 => ?_, fun h4 hh => ?_, fun h11 => ?_,
    fun h11 hh => ?_, fun h11 hh hv => ?_, fun h10 => ?_, fun h10 hh => ?_,
    fun h10 hh hv => ?_, fun h11 => ?_, fun h11 hh => ?_, fun h11 hh hv => ?_⟩
  · match v with
    | .arr ws => exact absurd rfl (hna ws)
    | .nil => exact ⟨rfl, rfl, rfl, rfl, rfl⟩
    | .mbool _ => exact ⟨rfl, rfl, rfl, rfl, rfl⟩
    | .nat _ => exact ⟨rfl, rfl, rfl, rfl, rfl⟩
    | .str _ => exact ⟨rfl, rfl, rfl, rfl, rfl⟩
    | .bin _ => exact ⟨rfl, rfl, rfl, rfl, rfl⟩
    | .keymap _ => exact ⟨rfl, rfl, rfl, rfl, rfl⟩
    | .packed _ => exact ⟨rfl, rfl, rfl, rfl, rfl⟩
  · rw [deserializeService, if_pos h0]
  · rw [deserializeService, if_neg h0, if_pos (by simpa [List.getD] using hh)]
  · rw [deserializeService, if_neg (by omega), if_neg (by simpa [List.getD] using hh),
      if_neg (by omega), if_pos h6, if_pos (by simpa [List.getD] using hv)]
  · rw [deserializeService, if_neg h0, if_neg (by simpa [List.getD] using hh), if_neg h5,
      if_neg h6]
  · rw [deserializeDevice, if_pos h4]
  · rw [deserializeDevice, if_neg (by omega), if_pos (by simpa [List.getD] using hh)]
  · rw [deserializeEnrolment, if_pos h11]
  · rw [deserializeEnrolment, if_neg (by omega), if_pos (by simpa [List.getD] using hh)]
  · rw [deserializeEnrolment, if_neg (by omega), if_neg (by simpa [List.getD] using hh),
      if_pos (by simpa [List.getD] using hv)]
  · rw [deserializePushAuth, if_pos h10]
  · rw [deserializePushAuth, if_neg (by omega), if_pos (by simpa [List.getD] using hh)]
  · rw [deserializePushAuth, if_neg (by omega), if_neg (by simpa [List.getD] using hh),
      if_pos (by simpa [List.getD] using hv)]
  · rw [deserializeWaveAuth, if_pos h11]
  · rw [deserializeWaveAuth, if_neg (by omega), if_pos (by simpa [List.getD] using hh)]
  · rw [deserializeWaveAuth, if_neg (by omega), if_neg (by simpa [List.getD] using hh),
      if_pos (by simpa [List.getD] using hv)]

/-- **C9** counterexample to the claim as written: a serialized enrolment
with version "5.0.0" is rejected with a message naming *PushAuth* (not the
enrolment being deserialized), and a six-component serialized service with
version "5.0.0" is rejected with the *header not found* message (not a
wrong-version one). -/
theorem c9_counterexample :
    deserializeEnrolment svcA (.arr [.str "CiphEnrl", .str "5.0.0", .nil,
      .nil, .nil, .nil, .nil, .nil, .nil, .nil, .nil]) =
      .error (.generic "Attempted to deserialize PushAuth, but wrong version") ∧
    ¬ List.IsInfix "enrolment".data
      "Attempted to deserialize PushAuth, but wrong version".data ∧
    deserializeService "https://u" (.arr [.str "CiphSrvc", .str "5.0.0",
      .str "id", .bin [], .nil, .nil]) =
      .error (.generic
        "Attempted to deserialize service, but header not found") ∧
    ¬ List.IsInfix "version".data
      "Attempted to deserialize service, but header not found".data := by
  refine ⟨by decide, by decide, by decide, by decide⟩

/-- **C9** witness: concrete wrong-version and wrong-arity buffers produce
the characterized errors. -/
theorem c9_witness :
    deserializeEnrolment svcA (.arr [.str "CiphEnrl", .str "4.0.0", .nil,
      .nil, .nil, .nil, .nil, .nil, .nil, .nil, .nil]) =
      .error (.generic "Attempted to deserialize PushAuth, but wrong version") ∧
    deserializeWaveAuth svcA (.arr [.str "CiphUsrW"]) =
      .error (.generic
        "Attempted to deserialize WaveAuth, but incorrect number of components") ∧
    deserializeDevice (.str "nope") =
      .error (.generic
        "Attempted to deserialize device, but buffer was invalid") := by
  refine ⟨?_, ?_, ?_⟩
  · exact (c9_deserializer_validation svcA "u" .nil
      [.str "CiphEnrl", .str "4.0.0", .nil, .nil, .nil, .nil, .nil, .nil,
        .nil, .nil, .nil]).2.2.2.2.2.2.2.2.2.1 (by decide) (by decide)
      (by decide)
  · exact (c9_deserializer_validation svcA "u" .nil
      [.str "CiphUsrW"]).2.2.2.2.2.2.2.2.2.2.2.2.2.1 (by decide)
  · exact ((c9_deserializer_validation svcA "u" (.str "nope") []).1
      (fun ws => by simp)).2.1



/-- **C10** (confirmed): an authentication status outside the six recognized
values makes `getState` of both authentication kinds fail with an error
naming the status and the session log id, while `Enrolment.getState` maps
every unrecognized status to `Unknown` without error. -/
theorem c10_unexpected_status (s q logId : String)
    (hs : s ≠ "initialised" ∧ s ≠ "scanned" ∧ s ≠ "pending sp solution" ∧
      s ≠ "pending app solution" ∧ s ≠ "done" ∧ s ≠ "not found")
    (hq : q ≠ "initialised" ∧ q ≠ "scanned" ∧ q ≠ "validated" ∧
      q ≠ "confirm" ∧ q ≠ "failed") :
    authGetState s logId = .error (.generic
      ("Unexpected status " ++ s ++ " for authentication (" ++ logId ++ ")")) ∧
    pushGetState s logId = .error (.generic
      ("Unexpected status " ++ s ++ " for authentication (" ++ logId ++ ")")) ∧
    waveGetState s logId = .error (.generic
      ("Unexpected status " ++ s ++ " for authentication (" ++ logId ++ ")")) ∧
    enrolGetState q = .Unknown := by
  obtain ⟨h1, h2, h3, h4, h5, h6⟩ := hs
  obtain ⟨g1, g2, g3, g4, g5⟩ := hq
  have ha : authGetState s logId = .error (.generic
      ("Unexpected status " ++ s ++ " for authentication (" ++ logId ++ ")")) := by
    rw [authGetState, if_neg h1, if_neg h2, if_neg h3, if_neg h4, if_neg h5,
      if_neg h6]
  refine ⟨ha, ?_, ?_, ?_⟩
  · rw [pushGetState, ha]
  · rw [waveGetState, ha]
  · rw [enrolGetState, if_neg g1, if_neg g2, if_neg g3, if_neg g4, if_neg g5]

/-- **C10** witness at the unrecognized status string "bogus". -/
theorem c10_witness :
    authGetState "bogus" "log7" = .error (.generic
      "Unexpected status bogus for authentication (log7)") ∧
    pushGetState "bogus" "log7" = .error (.generic
      "Unexpected status bogus for authentication (log7)") ∧
    waveGetState "bogus" "log7" = .error (.generic
      "Unexpected status bogus for authentication (log7)") ∧
    enrolGetState "bogus" = .Unknown := by
  have h := c10_unexpected_status "bogus" "bogus" "log7"
    (by refine ⟨?_, ?_, ?_, ?_, ?_, ?_⟩ <;> decide)
    (by refine ⟨?_, ?_, ?_, ?_, ?_⟩ <;> decide)
  exact ⟨h.1, h.2.1, h.2.2.1, h.2.2.2⟩

end Cipherise
